import Mathlib

/-!
LutronBridge: a shallow embedding of `src/LutronBridge.cpp`

The bridge keeps a telnet session to a Lutron gateway, parses the `~OUTPUT,` event
lines it receives into a device map, and writes `#OUTPUT,` / `?OUTPUT,` command lines.

Modelling decisions.

* A Wiring `String` is a `List Char` without NUL characters (`Str`).  The member functions
  used by the source (`indexOf`, `substring`, `toInt`, `toFloat`) and `String::format` belong
  to the device firmware, not to this repository; they are transcribed here from their
  documented behaviour (`strchr`/`strstr` search, `atol`, `atof`, `printf`).
* `int` positions are `Int`.  A `String` on the target is far shorter than `2^31` characters,
  so position arithmetic does not overflow; the one conversion that matters is an `int`
  passed where the firmware expects `unsigned int` (`-1` becomes `2^32 - 1`), see `toUnsigned`.
* The character constant `'\r\n'` in the source is a multi-character constant.  With the
  GCC toolchain of the target its value is `0x0D0A`, and passing it as the `char` argument of
  `indexOf(char, unsigned int)` keeps the low byte `0x0A`: the search is for the line feed.
* A `float` is an IEEE binary32 value (`Level`): a signed magnitude, an infinity or a NaN.
  `toFloat` is `float(atof(text))`: the text is read as `strtod` reads it (decimal or
  hexadecimal constant, `inf`, `nan`), rounded to binary64 and then to binary32, both to
  nearest with ties to even.  `%.<n>f` prints the exact binary value rounded to `n` decimals,
  ties to even.  NaN payloads are not modelled.
* `Serial` logging and `delay` are left out.  The TCP client, the `Particle.publish` event
  sink and the change callback are recorded as traces in the bridge state.
* The loops of `telnetListener` and `setAllDimmers` need not terminate, so they take fuel:
  `none` means that the fuel ran out before the loop left.
-/

namespace LutronBridge

/-! ## Wiring `String` -/

/-- A Wiring `String`: its characters, in order. -/
abbrev Str := List Char

/-- A C `float` (IEEE binary32): a finite value with its sign bit and its magnitude, an
infinity, or a NaN with its sign bit.  The binary32 values are the finite members whose
magnitude is `m * 2^e` with `m < 2^24`, `-149 ≤ e` and `m * 2^e < 2^128`; zero has both
signs. -/
inductive Level where
  | finite (neg : Bool) (mag : ℚ)
  | inf (neg : Bool)
  | nan (neg : Bool)
deriving DecidableEq

/-- A numeral is the float of that value, which is exact below `2^24`. -/
instance (n : Nat) : OfNat Level n := ⟨Level.finite false (n : ℚ)⟩

/-- An `int` argument converted to the `unsigned int` parameter of a `String` member:
the value modulo `2^32` for every `int` (`-2^31 ≤ i < 2^31`). -/
def toUnsigned (i : Int) : Nat :=
  if i < 0 then (i + 4294967296).toNat else i.toNat

/-- Offset of the first `ch` in `s` (`strchr`). -/
def findChar (ch : Char) : Str → Option Nat
  | [] => none
  | x :: xs => if x = ch then some 0 else (findChar ch xs).map (· + 1)

/-- Offset of the first occurrence of `pat` in `s` (`strstr`). -/
def findStr (pat : Str) : Str → Option Nat
  | [] => if pat = [] then some 0 else none
  | x :: xs => if pat.isPrefixOf (x :: xs) then some 0 else (findStr pat xs).map (· + 1)

/-- `String::indexOf(char ch, unsigned int fromIndex)`:
`if (fromIndex >= len) return -1;` then `strchr(buffer + fromIndex, ch)`. -/
def indexOfChar (s : Str) (ch : Char) (fromIndex : Nat) : Int :=
  if s.length ≤ fromIndex then -1
  else match findChar ch (s.drop fromIndex) with
    | none => -1
    | some k => ((fromIndex + k : Nat) : Int)

/-- `String::indexOf(const String &s2, unsigned int fromIndex)`:
`if (fromIndex >= len) return -1;` then `strstr(buffer + fromIndex, s2.buffer)`. -/
def indexOfStr (s : Str) (s2 : Str) (fromIndex : Nat) : Int :=
  if s.length ≤ fromIndex then -1
  else match findStr s2 (s.drop fromIndex) with
    | none => -1
    | some k => ((fromIndex + k : Nat) : Int)

/-- `String::substring(unsigned int left, unsigned int right)`: the bounds are swapped when
`left > right`, the result is empty when `left > len`, and `right` is cut down to `len`. -/
def substring (s : Str) (left right : Nat) : Str :=
  let l := if right < left then right else left
  let r := if right < left then left else right
  if s.length < l then []
  else (s.take (min r s.length)).drop l

/-- `String::substring(unsigned int left)` is `substring(left, len)`. -/
def substringFrom (s : Str) (left : Nat) : Str :=
  substring s left s.length

/-- C `isspace` in the "C" locale. -/
def isspace (c : Char) : Bool :=
  c = ' ' || c = '\t' || c = '\n' || c = '\x0b' || c = '\x0c' || c = '\r'

/-- C `isdigit`. -/
def isdigit (c : Char) : Bool :=
  decide (48 ≤ c.toNat) && decide (c.toNat ≤ 57)

/-- Value of a decimal digit character. -/
def digitVal (c : Char) : Nat := c.toNat - 48

/-- Value of a run of decimal digits, most significant first. -/
def digitsVal (ds : Str) : Nat :=
  ds.foldl (fun acc c => 10 * acc + digitVal c) 0

/-- An optional leading sign: whether it is `-`, and the rest. -/
def splitSign : Str → Bool × Str
  | [] => (false, [])
  | c :: r => if c = '-' then (true, r) else if c = '+' then (false, r) else (false, c :: r)

/-- A value brought into the range of a 32-bit `long` (`strtol` saturates). -/
def clampLong (n : Int) : Int :=
  if n < -2147483648 then -2147483648 else if 2147483647 < n then 2147483647 else n

/-- `String::toInt()`, that is `atol(buffer)`: leading white space, an optional sign, then
the longest run of digits; `0` when there is no digit. -/
def toInt (s : Str) : Int :=
  let p := splitSign (s.dropWhile isspace)
  let n : Int := (digitsVal (p.2.takeWhile isdigit) : Nat)
  clampLong (if p.1 then -n else n)

/-- The exponent part of a decimal floating constant, when `r` starts with one:
`e` or `E`, an optional sign and at least one digit. -/
def exponentOf (r : Str) : Int :=
  match r with
  | [] => 0
  | c :: t =>
    if c = 'e' || c = 'E' then
      let p := splitSign t
      let n : Int := (digitsVal (p.2.takeWhile isdigit) : Nat)
      if p.1 then -n else n
    else 0

/-- The character of a decimal digit `d < 10`. -/
def digitChar (d : Nat) : Char := Char.ofNat (48 + d)

/-- Decimal digits of `n`, most significant first, put in front of `acc`. -/
def natDigitsAux : Nat → Nat → Str → Str
  | 0, _, acc => acc
  | fuel + 1, n, acc =>
    if n / 10 = 0 then digitChar (n % 10) :: acc
    else natDigitsAux fuel (n / 10) (digitChar (n % 10) :: acc)

/-- Decimal text of a natural number (`"0"` for zero). -/
def natDigits (n : Nat) : Str := natDigitsAux (n + 1) n []

/-- The `printf` conversion `%i` of an `int`. -/
def fmtInt (n : Int) : Str :=
  if n < 0 then '-' :: natDigits n.natAbs else natDigits n.natAbs

/-- The quotient `a / d` rounded to the nearest integer, ties to even. -/
def roundHalfEven (a d : Nat) : Nat :=
  if 2 * (a % d) < d then a / d
  else if d < 2 * (a % d) then a / d + 1
  else if a / d % 2 = 0 then a / d else a / d + 1

/-- The last `width` decimal digits of `n`, with leading zeros. -/
def fracDigits : Nat → Nat → Str
  | 0, _ => []
  | w + 1, n => digitChar (n / 10 ^ w % 10) :: fracDigits w n

/-- The number of binary digits of `n` (`0` for zero), computed with `fuel` steps. -/
def bitLengthAux : Nat → Nat → Nat
  | 0, _ => 0
  | fuel + 1, n => if n = 0 then 0 else bitLengthAux fuel (n / 2) + 1

/-- The number of binary digits of `n`: `2^(bitLength n - 1) ≤ n < 2^(bitLength n)`. -/
def bitLength (n : Nat) : Nat := bitLengthAux n n

/-- The integer part of the binary logarithm of `n / d`, for positive `n` and `d`. -/
def floorLog2 (n d : Nat) : Int :=
  let k : Int := (bitLength n : Int) - (bitLength d : Int)
  if d * 2 ^ k.toNat ≤ n * 2 ^ (-k).toNat then k else k - 1

/-- The nonnegative rational `q` rounded to a binary format with `p` significant bits and
least exponent `emin`: the nearest `m * 2^e` with `m < 2^p` and `emin ≤ e`, ties to even;
`none` when the rounded value is `2^emax` or more (overflow to infinity). -/
def roundBinary (p : Nat) (emin : Int) (emax : Nat) (q : ℚ) : Option ℚ :=
  if q.num = 0 then some 0
  else
    let e0 : Int := floorLog2 q.num.natAbs q.den - ((p : Int) - 1)
    let e : Int := if e0 < emin then emin else e0
    let m := roundHalfEven (q.num.natAbs * 2 ^ (-e).toNat) (q.den * 2 ^ e.toNat)
    if (emax : Int) < (bitLength m : Int) + e then none
    else some (mkRat ((m : Int) * 2 ^ e.toNat) (2 ^ (-e).toNat))

/-- The conversion `float(x)` of the `double` nearest to the magnitude `q`, with the sign bit
`neg`: `q` rounded to binary64 (53 bits, exponents from -1074, below `2^1024`) and the
result rounded to binary32 (24 bits, exponents from -149, below `2^128`). -/
def float32 (neg : Bool) (q : ℚ) : Level :=
  match (roundBinary 53 (-1074) 1024 q).bind (roundBinary 24 (-149) 128) with
  | some m => Level.finite neg m
  | none => Level.inf neg

/-- C `tolower` in the "C" locale. -/
def tolower (c : Char) : Char :=
  if 65 ≤ c.toNat ∧ c.toNat ≤ 90 then Char.ofNat (c.toNat + 32) else c

/-- C `isxdigit`. -/
def isxdigit (c : Char) : Bool :=
  isdigit c || (decide (97 ≤ c.toNat) && decide (c.toNat ≤ 102)) ||
    (decide (65 ≤ c.toNat) && decide (c.toNat ≤ 70))

/-- Value of a hexadecimal digit character. -/
def hexVal (c : Char) : Nat :=
  if isdigit c then c.toNat - 48 else if 97 ≤ c.toNat then c.toNat - 87 else c.toNat - 55

/-- Value of a run of hexadecimal digits, most significant first. -/
def hexDigitsVal (ds : Str) : Nat :=
  ds.foldl (fun acc c => 16 * acc + hexVal c) 0

/-- The binary exponent part of a hexadecimal floating constant, when `r` starts with one:
`p` or `P`, an optional sign and at least one decimal digit. -/
def binaryExponentOf (r : Str) : Int :=
  match r with
  | [] => 0
  | c :: t =>
    if c = 'p' || c = 'P' then
      let p := splitSign t
      let n : Int := (digitsVal (p.2.takeWhile isdigit) : Nat)
      if p.1 then -n else n
    else 0

/-- The magnitude of the hexadecimal floating constant at the start of `r`: `0x` or `0X`,
hexadecimal digits with an optional `.`, at least one digit, an optional binary exponent;
`none` when `r` does not start with one. -/
def hexMagnitude (r : Str) : Option ℚ :=
  match r with
  | c0 :: c1 :: t =>
    if c0 = '0' ∧ (c1 = 'x' ∨ c1 = 'X') then
      let ip := t.takeWhile isxdigit
      let r1 := t.dropWhile isxdigit
      let fp := match r1 with
        | [] => []
        | c :: u => if c = '.' then u.takeWhile isxdigit else []
      let r2 := match r1 with
        | [] => []
        | c :: u => if c = '.' then u.dropWhile isxdigit else c :: u
      if ip = [] ∧ fp = [] then none
      else
        let e : Int := binaryExponentOf r2 - 4 * (fp.length : Nat)
        some (mkRat ((hexDigitsVal (ip ++ fp) : Nat) * 2 ^ e.toNat) (2 ^ (-e).toNat))
    else none
  | _ => none

/-- The magnitude of the decimal floating constant at the start of `r`: digits with an
optional `.` and fraction digits, at least one digit, an optional exponent; `none` when `r`
does not start with one. -/
def decimalMagnitude (r : Str) : Option ℚ :=
  let ip := r.takeWhile isdigit
  let r1 := r.dropWhile isdigit
  let fp := match r1 with
    | [] => []
    | c :: t => if c = '.' then t.takeWhile isdigit else []
  let r2 := match r1 with
    | [] => []
    | c :: t => if c = '.' then t.dropWhile isdigit else c :: t
  if ip = [] ∧ fp = [] then none
  else
    let e : Int := exponentOf r2 - (fp.length : Nat)
    some (mkRat ((digitsVal (ip ++ fp) : Nat) * 10 ^ e.toNat) (10 ^ (-e).toNat))

/-- `String::toFloat()`, that is `float(atof(buffer))`: leading white space and an optional
sign, then `inf` or `nan` in any case, a hexadecimal constant or a decimal constant; `+0`
when the text starts with none of them. -/
def toFloat (s : Str) : Level :=
  let p := splitSign (s.dropWhile isspace)
  if (p.2.take 3).map tolower = ['i', 'n', 'f'] then Level.inf p.1
  else if (p.2.take 3).map tolower = ['n', 'a', 'n'] then Level.nan p.1
  else match hexMagnitude p.2 with
    | some q => float32 p.1 q
    | none =>
      match decimalMagnitude p.2 with
      | some q => float32 p.1 q
      | none => Level.finite false 0

/-- The `printf` conversion `%.<prec>f` of a `float` (passed as the `double` of the same
value): the magnitude rounded to `prec` decimals, ties to even, after the sign; `inf` and
`nan` for the values that are not finite. -/
def fmtFixed (prec : Nat) (x : Level) : Str :=
  match x with
  | Level.finite neg mag =>
    (if neg then ['-'] else []) ++
      natDigits (roundHalfEven (mag.num.natAbs * 10 ^ prec) mag.den / 10 ^ prec) ++
      (if prec = 0 then []
       else '.' :: fracDigits prec
        (roundHalfEven (mag.num.natAbs * 10 ^ prec) mag.den % 10 ^ prec))
  | Level.inf neg => (if neg then ['-'] else []) ++ ['i', 'n', 'f']
  | Level.nan neg => (if neg then ['-'] else []) ++ ['n', 'a', 'n']

/-! ## Constants of `LutronBridge.h` -/

/-- Modelled from the spec: the macro `LUTRON_RETURN` of `LutronBridge.h` (not under `src/`),
the marker that starts every event line, `~OUTPUT,` (spec §6). -/
def LUTRON_RETURN : Str := "~OUTPUT,".toList

/-- Modelled from the spec: `String::format(LUTRON_WRITE, nDimmer, fLevel)` with the macro
`LUTRON_WRITE` of `LutronBridge.h` (not under `src/`), the set-level command
`#OUTPUT,<id>,1,<level>` with the level printed with two decimals (spec §6). -/
def LUTRON_WRITE (nDimmer : Int) (fLevel : Level) : Str :=
  "#OUTPUT,".toList ++ fmtInt nDimmer ++ ",1,".toList ++ fmtFixed 2 fLevel

/-- Modelled from the spec: `String::format(LUTRON_READ, nDimmer)` with the macro
`LUTRON_READ` of `LutronBridge.h` (not under `src/`), the query command `?OUTPUT,<id>,1`
(spec §6). -/
def LUTRON_READ (nDimmer : Int) : Str :=
  "?OUTPUT,".toList ++ fmtInt nDimmer ++ ",1".toList

/-- The line terminator written by `client.println`. -/
def CRLF : Str := ['\r', '\n']

/-! ## Data model -/

/-- `LUTRON_DEVICE`: a device id with its current level and its on level. -/
structure LUTRON_DEVICE where
  id : Int
  currentLevel : Level
  onLevel : Level
deriving DecidableEq

/-- The parts of `LutronBridge.h` whose values neither the source nor the spec gives: the
macro `DEFAULT_ON_LEVEL` and the device that `LUTRON_DEVICE()` constructs. -/
structure Header where
  DEFAULT_ON_LEVEL : Level
  defaultDevice : LUTRON_DEVICE

/-- Modelled from the spec: the type `DEVICE_MAP` is declared in `LutronBridge.h` (not under
`src/`).  The source uses it with `find`, `end`, `operator[]` and iterators with `first`
and `second`, and the spec has the device cache as a mapping from device id to device; it
is taken as `std::map<int, LUTRON_DEVICE>`, whose iteration is in ascending key order.  Here:
the entries in iteration order. -/
abbrev DEVICE_MAP := List (Int × LUTRON_DEVICE)

/-- The bridge object together with the collaborators it talks to. -/
structure Bridge where
  /-- Whether `changeCB` is set (not NULL). -/
  changeCB : Bool
  bPublishAll : Bool
  /-- Whether `telnetListenerThread` holds a thread (not NULL). -/
  telnetListenerThread : Bool
  m_bMonitor : Bool
  deviceMap : DEVICE_MAP
  /-- What `client.connected()` reports. -/
  clientConnected : Bool
  /-- The bytes written to the TCP client so far. -/
  clientOut : Str
  /-- The calls `Particle.publish(name, data)` so far. -/
  published : List (Str × Str)
  /-- The arguments of the calls of `changeCB` so far. -/
  cbCalls : List Int
deriving DecidableEq

/-- `LutronBridge::LutronBridge()`, with a client that is not connected. -/
def new : Bridge :=
  { changeCB := false, bPublishAll := true, telnetListenerThread := false,
    m_bMonitor := false, deviceMap := [], clientConnected := false,
    clientOut := [], published := [], cbCalls := [] }

/-! ## The device map -/

/-- `deviceMap.find(k)`. -/
def mapFind (k : Int) : DEVICE_MAP → Option LUTRON_DEVICE
  | [] => none
  | e :: rest => if e.1 = k then some e.2 else mapFind k rest

/-- `deviceMap[k] = v`: the entry of `k` is replaced, or inserted at its place in key order. -/
def mapAssign (k : Int) (v : LUTRON_DEVICE) : DEVICE_MAP → DEVICE_MAP
  | [] => [(k, v)]
  | e :: rest =>
    if k < e.1 then (k, v) :: e :: rest
    else if k = e.1 then (k, v) :: rest
    else e :: mapAssign k v rest

/-- `LutronBridge::addDevice`. -/
def addDevice (b : Bridge) (nDeviceID : Int) (device : LUTRON_DEVICE) : Bridge :=
  { b with deviceMap := mapAssign nDeviceID device b.deviceMap }

/-- `LutronBridge::updateDevice`. -/
def updateDevice (b : Bridge) (nDeviceID : Int) (device : LUTRON_DEVICE) : Bridge :=
  { b with deviceMap := mapAssign nDeviceID device b.deviceMap }

/-- `LutronBridge::getDevice`: `deviceMap[nDeviceID]` inserts a default-constructed device
when the id has no entry. -/
def getDevice (h : Header) (b : Bridge) (nDeviceID : Int) : LUTRON_DEVICE × Bridge :=
  match mapFind nDeviceID b.deviceMap with
  | some d => (d, b)
  | none => (h.defaultDevice,
      { b with deviceMap := mapAssign nDeviceID h.defaultDevice b.deviceMap })

/-- `LutronBridge::deviceExists`. -/
def deviceExists (b : Bridge) (nDeviceID : Int) : Bool :=
  (mapFind nDeviceID b.deviceMap).isSome

/-! ## Commands -/

/-- `LutronBridge::sendCommand`: the status, and the bridge afterwards. -/
def sendCommand (b : Bridge) (sCommand : Str) : Int × Bridge :=
  if b.clientConnected then (1, { b with clientOut := b.clientOut ++ sCommand ++ CRLF })
  else (-1, b)

/-- `LutronBridge::_setDimmer`. -/
def _setDimmer (b : Bridge) (nDimmer : Int) (fLevel : Level) : Int × Bridge :=
  sendCommand b (LUTRON_WRITE nDimmer fLevel)

/-- `LutronBridge::setDimmer`. -/
def setDimmer (b : Bridge) (sDimmer : Str) : Int × Bridge :=
  let nPos := indexOfChar sDimmer ',' 0
  if nPos = -1 then (-1, b)
  else
    _setDimmer b (toInt (substring sDimmer 0 (toUnsigned nPos)))
      (toFloat (substringFrom sDimmer (toUnsigned (nPos + 1))))

/-- `LutronBridge::_getDimmer`. -/
def _getDimmer (b : Bridge) (nDimmer : Int) : Int × Bridge :=
  sendCommand b (LUTRON_READ nDimmer)

/-- `LutronBridge::getDimmer`. -/
def getDimmer (b : Bridge) (sDimmer : Str) : Int × Bridge :=
  _getDimmer b (toInt sDimmer)

/-- One line of `getAllDimmers`: `String::format("D=%i&L=%.0f\r\n", id, currentLevel)`. -/
def dimmerLine (e : Int × LUTRON_DEVICE) : Str :=
  "D=".toList ++ fmtInt e.1 ++ "&L=".toList ++ fmtFixed 0 e.2.currentLevel ++ CRLF

/-- The loop of `getAllDimmers` over the map, appending to `states`. -/
def getAllDimmersLoop : DEVICE_MAP → Str → Str
  | [], states => states
  | e :: rest, states => getAllDimmersLoop rest (states ++ dimmerLine e)

/-- `LutronBridge::getAllDimmers`: the string returned, and the bridge afterwards. -/
def getAllDimmers (b : Bridge) : Str × Bridge :=
  let states := getAllDimmersLoop b.deviceMap []
  (states, { b with published := b.published ++ [("lutron/alldevices/state".toList, states)] })

/-- The `do ... while (start != -1)` loop of `setAllDimmers`, entered with the current
`start`; `none` when the fuel runs out. -/
def setAllDimmersLoop (sResult : Str) : Nat → Int → Bridge → Option Bridge
  | 0, _, _ => none
  | fuel + 1, start, b =>
    let start1 := indexOfStr sResult "D=".toList (toUnsigned start)
    if start1 = -1 then some b
    else
      let start2 := start1 + 2
      let end1 := indexOfChar sResult '&' (toUnsigned start2)
      let nDevice := toInt (substring sResult (toUnsigned start2) (toUnsigned end1))
      let start3 := indexOfStr sResult "L=".toList (toUnsigned start2)
      if start3 = -1 then some b
      else
        let start4 := start3 + 2
        let end2 := indexOfChar sResult '\n' (toUnsigned start4)
        let fLevel := toFloat (substring sResult (toUnsigned start4) (toUnsigned end2))
        let start5 := end2 + 2
        let b1 := (_setDimmer b nDevice fLevel).2
        if start5 ≠ -1 then setAllDimmersLoop sResult fuel start5 b1 else some b1

/-- `LutronBridge::setAllDimmers`: the status `1` and the bridge afterwards, or `none` when
the loop has not left within `fuel` iterations. -/
def setAllDimmers (fuel : Nat) (b : Bridge) (sCommand : Str) : Option (Int × Bridge) :=
  (setAllDimmersLoop sCommand fuel 0 b).map (fun b1 => (1, b1))

/-- `LutronBridge::initDimmerLevels`: the loop `for (i = 0; i < nMax; i++) _getDimmer(i)`,
entered with the current `i` and `count` iterations to go. -/
def initDimmerLevelsLoop : Nat → Int → Bridge → Bridge
  | 0, _, b => b
  | count + 1, i, b => initDimmerLevelsLoop count (i + 1) (_getDimmer b i).2

/-- `LutronBridge::initDimmerLevels`. -/
def initDimmerLevels (b : Bridge) (nMax : Int) : Int × Bridge :=
  (1, initDimmerLevelsLoop nMax.toNat 0 b)

/-! ## The listener -/

/-- The body of `if(nCommand == 1)` in `telnetListener`: publish the event when
`bPublishAll`, store the device, call the change callback when there is one. -/
def applyChange (h : Header) (b : Bridge) (nDevice : Int) (fLevel : Level) : Bridge :=
  { b with
    published :=
      if b.bPublishAll then
        b.published ++ [("lutron/device/changed".toList,
          "device=".toList ++ fmtInt nDevice ++ "&level=".toList ++ fmtFixed 0 fLevel)]
      else b.published
    deviceMap := mapAssign nDevice ⟨nDevice, fLevel, h.DEFAULT_ON_LEVEL⟩ b.deviceMap
    cbCalls := if b.changeCB then b.cbCalls ++ [nDevice] else b.cbCalls }

/-- The `do ... while (start != -1)` loop of `telnetListener` over the received text
`sResult`, entered with the current `start`; `none` when the fuel runs out. -/
def telnetListenerScan (h : Header) (sResult : Str) : Nat → Int → Bridge → Option Bridge
  | 0, _, _ => none
  | fuel + 1, start, b =>
    let start1 := indexOfStr sResult LUTRON_RETURN (toUnsigned start)
    if start1 = -1 then some b
    else
      let start2 := start1 + (LUTRON_RETURN.length : Nat)
      let end1 := indexOfChar sResult ',' (toUnsigned start2)
      let nDevice := toInt (substring sResult (toUnsigned start2) (toUnsigned end1))
      let start3 := end1 + 1
      let end2 := indexOfChar sResult ',' (toUnsigned start3)
      let nCommand := toInt (substring sResult (toUnsigned start3) (toUnsigned end2))
      let start4 := end2 + 1
      let end3 := indexOfChar sResult '\n' (toUnsigned start4)
      let fLevel := toFloat (substring sResult (toUnsigned start4) (toUnsigned end3))
      let b1 := if nCommand = 1 then applyChange h b nDevice fLevel else b
      if start4 ≠ -1 then telnetListenerScan h sResult fuel start4 b1 else some b1

/-- One iteration of the `while(true)` loop of `telnetListener`, with `received` the bytes
that the client had available: nothing is done when there are none (`bInput` stays false). -/
def telnetListener (h : Header) (fuel : Nat) (b : Bridge) (received : Str) : Option Bridge :=
  if received = [] then some b else telnetListenerScan h received fuel 0 b

/-! ## Session -/

/-- `LutronBridge::connect`, with `opened` telling whether `client.connect` brought the
connection up.  On success the two login lines are written and the listener thread is
created; `initDimmerLevels(90)` runs when `m_bMonitor`. -/
def connect (b : Bridge) (opened : Bool) : Bool × Bridge :=
  let b0 := { b with clientConnected := opened }
  if b0.clientConnected then
    let b1 := { b0 with clientOut := b0.clientOut ++ "lutron".toList ++ CRLF }
    let b2 := { b1 with clientOut := b1.clientOut ++ "integration".toList ++ CRLF }
    let b3 := { b2 with telnetListenerThread := true }
    (true, if b3.m_bMonitor then (initDimmerLevels b3 90).2 else b3)
  else
    (false, { b0 with clientConnected := false })

/-- `LutronBridge::disconnect`: `client.stop()`, then the listener thread is deleted. -/
def disconnect (b : Bridge) : Bridge :=
  let b1 := { b with clientConnected := false }
  if b1.telnetListenerThread then { b1 with telnetListenerThread := false } else b1

/-! ## Wire formats used to state the properties -/

/-- The event line `~OUTPUT,<id>,<cmd>,<level>` followed by CRLF, from the texts of its
three fields. -/
def frameText (idText cmdText levelText : Str) : Str :=
  LUTRON_RETURN ++ idText ++ [','] ++ cmdText ++ [','] ++ levelText ++ CRLF

/-- The value that a decimal numeral `whole.frac` denotes. -/
def decimalValue (whole frac : Str) : ℚ :=
  mkRat (digitsVal (whole ++ frac) : Nat) (10 ^ frac.length)

/-- The level that a decimal numeral `whole.frac` denotes: the `float` of its value. -/
def levelOfDecimal (whole frac : Str) : Level :=
  float32 false (decimalValue whole frac)

/-- A well-formed change frame: `~OUTPUT,<id>,1,<whole>.<frac>` followed by CRLF. -/
def changeFrame (id : Int) (whole frac : Str) : Str :=
  frameText (fmtInt id) ['1'] (whole ++ ['.'] ++ frac)

/-- The event that the listener publishes for a change of device `id` to `level`. -/
def changeEvent (id : Int) (level : Level) : Str × Str :=
  ("lutron/device/changed".toList,
    "device=".toList ++ fmtInt id ++ "&level=".toList ++ fmtFixed 0 level)

/-- A text made of decimal digits only. -/
def AllDigits (t : Str) : Prop := ∀ c ∈ t, isdigit c = true

/-- A text whose first character, if any, is a digit or the point. -/
def StartsNumeral (r : Str) : Prop := ∀ c ∈ r.head?, isdigit c = true ∨ c = '.'

/-- The natural number `n` is `x` rounded to the nearest integer, ties to even. -/
def IsNearestEven (x : ℚ) (n : Nat) : Prop :=
  2 * (n : ℚ) - 1 ≤ 2 * x ∧ 2 * x ≤ 2 * (n : ℚ) + 1 ∧
    ((2 * x = 2 * (n : ℚ) - 1 ∨ 2 * x = 2 * (n : ℚ) + 1) → n % 2 = 0)

/-- The text `t` is the value with sign bit `neg` and magnitude `mag` written in fixed-point
form with exactly `prec` decimals: a `-` when the sign bit is set, the digits of the whole
part without a superfluous leading zero, and for `prec > 0` the point and `prec` fraction
digits, the digits being those of `mag * 10^prec` rounded to the nearest integer, ties to
even. -/
def IsFixedText (prec : Nat) (neg : Bool) (mag : ℚ) (t : Str) : Prop :=
  ∃ whole frac : Str,
    t = (if neg then ['-'] else []) ++ whole ++ (if prec = 0 then [] else '.' :: frac) ∧
    AllDigits whole ∧ AllDigits frac ∧ whole ≠ [] ∧
    (whole.head? = some '0' → whole = ['0']) ∧ frac.length = prec ∧
    IsNearestEven (mag * 10 ^ prec) (digitsVal (whole ++ frac))

/-- The token `D=<id>&L=<level>` followed by CRLF, as `setAllDimmers` expects it. -/
def bulkToken (id : Int) (levelText : Str) : Str :=
  "D=".toList ++ fmtInt id ++ "&L=".toList ++ levelText ++ CRLF

instance (t : Str) : Decidable (AllDigits t) := by unfold AllDigits; infer_instance

/-! ## Concrete inputs -/

/-- A header for evaluation: `DEFAULT_ON_LEVEL` 100 and a default device of zeros. -/
def exampleHeader : Header := ⟨100, ⟨0, 0, 0⟩⟩

/-- A freshly constructed bridge whose client is connected. -/
def connectedBridge : Bridge := { new with clientConnected := true }

/-- A received text that ends inside a frame: no level token and no line terminator. -/
def truncatedFrame : Str := "~OUTPUT,5,1".toList

/-- A bulk-state text whose only token starts at position 1 and has no line terminator. -/
def danglingToken : Str := " D=1&L=5".toList

/-- The cache that holds device 5 at level 100 and device 7 at level 30, built by two
upserts in descending id order. -/
def exampleCache : Bridge := addDevice (addDevice new 7 ⟨7, 30, 100⟩) 5 ⟨5, 100, 100⟩

/-- The bridge reached from `new` by a list of upserts. -/
def upserts (l : List (Int × LUTRON_DEVICE)) (b : Bridge) : Bridge :=
  l.foldl (fun acc e => addDevice acc e.1 e.2) b

/-! ## Queries and frame sequences -/

/-- The query line `?OUTPUT,<i>,1` followed by CRLF. -/
def queryLine (i : Int) : Str :=
  "?OUTPUT,".toList ++ fmtInt i ++ ",1".toList ++ ['\r', '\n']

/-- A cache in which device 5 has the on level 50, which is not the default of
`exampleHeader`. -/
def cacheWithOnLevel : Bridge := addDevice new 5 ⟨5, 20, 50⟩

/-- The level that the change frame `f = (id, whole, frac)` carries. -/
def frameLevel (f : Int × Str × Str) : Level := levelOfDecimal f.2.1 f.2.2

/-- The received text made of the change frames of `fs`, in order. -/
def framesText (fs : List (Int × Str × Str)) : Str :=
  (fs.map (fun f => changeFrame f.1 f.2.1 f.2.2)).flatten

/-- Every frame of `fs` has an `int` id and digit texts for its level. -/
def WellFormedFrames (fs : List (Int × Str × Str)) : Prop :=
  ∀ f ∈ fs, -2147483648 ≤ f.1 ∧ f.1 ≤ 2147483647 ∧ AllDigits f.2.1 ∧ AllDigits f.2.2

instance (fs : List (Int × Str × Str)) : Decidable (WellFormedFrames fs) := by
  unfold WellFormedFrames; infer_instance

/-- The level of the last frame of `fs` for device `id`, if there is one. -/
def lastLevel (id : Int) (fs : List (Int × Str × Str)) : Option Level :=
  ((fs.filter (fun f => decide (f.1 = id))).getLast?).map frameLevel

/-- The changes of the frames of `fs` applied in order. -/
def applyFrames (h : Header) (b : Bridge) (fs : List (Int × Str × Str)) : Bridge :=
  fs.foldl (fun acc f => applyChange h acc f.1 (frameLevel f)) b

/-- Three change frames in one drain: device 5 to 100, device 7 to 0.10, device 5 to
2.5000001. -/
def exampleFrames : List (Int × Str × Str) :=
  [(5, "100".toList, "00".toList), (7, "0".toList, "10".toList),
    (5, "2".toList, "5000001".toList)]

/-- The part of the level text that the first chunk `A` of a split change frame for `id`
carries: what follows `~OUTPUT,<id>,1,` in `A`. -/
def levelPart (id : Int) (A : Str) : Str :=
  A.drop (LUTRON_RETURN ++ fmtInt id ++ ",1,".toList).length

/-- A cache with levels that are not whole numbers: 0.25, 0.5, 1.5, 2.5 and -0.75. -/
def fractionCache : Bridge :=
  upserts
    [(1, ⟨1, Level.finite false (mkRat 1 4), 100⟩), (2, ⟨2, Level.finite false (mkRat 1 2), 100⟩),
      (3, ⟨3, Level.finite false (mkRat 3 2), 100⟩), (4, ⟨4, Level.finite false (mkRat 5 2), 100⟩),
      (6, ⟨6, Level.finite true (mkRat 3 4), 100⟩)] new

/-! ## Evaluation of the numeric conversions -/

theorem toInt_examples :
    toInt "1\r\n~OUTPUT".toList = 1 ∧ toInt " -17abc".toList = -17 ∧ toInt "abc".toList = 0 := by
  decide

set_option maxRecDepth 4000 in
theorem toFloat_examples :
    toFloat "100.00\r".toList = 100 ∧ toFloat "1e2".toList = 100 ∧
      toFloat "-2.5E-1x".toList = Level.finite true (mkRat 1 4) ∧
      toFloat "~OUTPUT,5,1".toList = 0 ∧ toFloat "".toList = 0 ∧
      toFloat "-".toList = Level.finite false 0 ∧ toFloat "-0".toList = Level.finite true 0 ∧
      toFloat " .5".toList = Level.finite false (mkRat 1 2) ∧
      toFloat "0x10".toList = 16 ∧ toFloat "0x1.8p1".toList = 3 ∧ toFloat "0x".toList = 0 ∧
      toFloat "-Infinity".toList = Level.inf true ∧ toFloat "nan(1)".toList = Level.nan false ∧
      toFloat "in".toList = 0 := by
  decide

set_option maxRecDepth 4000 in
theorem toFloat_rounding_examples :
    toFloat "0.1".toList = Level.finite false (mkRat 13421773 134217728) ∧
      toFloat "0.015".toList = Level.finite false (mkRat 16106127 1073741824) ∧
      toFloat "2.5000001".toList = Level.finite false (mkRat 5 2) ∧
      toFloat "16777217.00".toList = 16777216 ∧
      toFloat "1.0000000596046448".toList = 1 ∧
      toFloat "1e-45".toList
        = Level.finite false (mkRat 1 713623846352979940529142984724747568191373312) ∧
      toFloat "1e-46".toList = 0 := by
  decide

set_option maxRecDepth 4000 in
theorem toFloat_overflow_examples :
    toFloat "3.4028235e38".toList = 340282346638528859811704183484516925440 ∧
      toFloat "3.4028236e38".toList = Level.inf false ∧
      toFloat "340282356779733661637539395458142568447".toList = Level.inf false ∧
      toFloat "-10000000000000000000000000000000000000000".toList = Level.inf true := by
  decide

set_option maxRecDepth 4000 in
theorem format_examples :
    fmtInt (-25) = "-25".toList ∧
      fmtFixed 2 (Level.finite false (mkRat 1005 10)) = "100.50".toList ∧
      fmtFixed 0 (Level.finite false (mkRat 5 2)) = "2".toList ∧
      fmtFixed 0 (Level.finite false (mkRat 3 2)) = "2".toList ∧
      fmtFixed 0 (Level.finite false (mkRat 1 2)) = "0".toList ∧
      fmtFixed 0 (Level.finite false (mkRat 1 4)) = "0".toList ∧
      fmtFixed 2 (Level.finite true (mkRat 1 1000)) = "-0.00".toList ∧
      fmtFixed 2 (Level.finite true 0) = "-0.00".toList ∧
      fmtFixed 2 (Level.finite false (mkRat 1 8)) = "0.12".toList ∧
      fmtFixed 2 (Level.finite false (mkRat 3 8)) = "0.38".toList ∧
      fmtFixed 2 (toFloat "0.015".toList) = "0.01".toList ∧
      fmtFixed 2 (toFloat "33.335".toList) = "33.33".toList ∧
      fmtFixed 2 (toFloat "2.675".toList) = "2.67".toList ∧
      fmtFixed 2 (Level.inf false) = "inf".toList ∧
      fmtFixed 0 (Level.inf true) = "-inf".toList ∧
      fmtFixed 2 (Level.nan false) = "nan".toList := by
  decide

theorem string_examples :
    indexOfChar "a,b".toList ',' 0 = 1 ∧ indexOfChar "a,b".toList ',' 3 = -1 ∧
      indexOfStr "xx~OUTPUT,5".toList LUTRON_RETURN 1 = 2 ∧
      substring "abcdef".toList 2 (toUnsigned (-1)) = "cdef".toList ∧
      substring "abcdef".toList 4 2 = "cd".toList := by
  decide

/-! ## Lemmas on the `String` functions -/

theorem toUnsigned_natCast (n : Nat) : toUnsigned (n : Int) = n := by
  unfold toUnsigned
  have h : ¬ ((n : Int) < 0) := by omega
  rw [if_neg h]
  exact Int.toNat_natCast n

theorem toUnsigned_of_eq {i : Int} {n : Nat} (h : i = (n : Int)) : toUnsigned i = n := by
  rw [h]; exact toUnsigned_natCast n

theorem findChar_append_of_not_mem (ch : Char) (a r : Str) (ha : ch ∉ a) :
    findChar ch (a ++ ch :: r) = some a.length := by
  induction a with
  | nil => simp [findChar]
  | cons x xs ih =>
    have hx : x ≠ ch := fun e => ha (by simp [e])
    have hxs : ch ∉ xs := fun m => ha (List.mem_cons_of_mem _ m)
    simp [findChar, hx, ih hxs]

theorem findChar_eq_none (ch : Char) (a : Str) (ha : ch ∉ a) : findChar ch a = none := by
  induction a with
  | nil => rfl
  | cons x xs ih =>
    have hx : x ≠ ch := fun e => ha (by simp [e])
    have hxs : ch ∉ xs := fun m => ha (List.mem_cons_of_mem _ m)
    simp [findChar, hx, ih hxs]

theorem findStr_append_of_not_mem (c : Char) (pat q r : Str) (hq : c ∉ q) :
    findStr (c :: pat) (q ++ ((c :: pat) ++ r)) = some q.length := by
  induction q with
  | nil => simp [findStr]
  | cons x xs ih =>
    have hx : c ≠ x := fun e => hq (by simp [e])
    have hxs : c ∉ xs := fun m => hq (List.mem_cons_of_mem _ m)
    have := ih hxs
    simp [findStr, List.isPrefixOf, hx] at this ⊢
    simp [this]

theorem findStr_eq_none (c : Char) (pat q : Str) (hq : c ∉ q) :
    findStr (c :: pat) q = none := by
  induction q with
  | nil => simp [findStr]
  | cons x xs ih =>
    have hx : c ≠ x := fun e => hq (by simp [e])
    have hxs : c ∉ xs := fun m => hq (List.mem_cons_of_mem _ m)
    simp [findStr, List.isPrefixOf, hx, ih hxs]

theorem indexOfChar_of_split (s p a r : Str) (ch : Char) (n : Nat)
    (hs : s = p ++ (a ++ ch :: r)) (hn : n = p.length) (ha : ch ∉ a) :
    indexOfChar s ch n = ((p.length + a.length : Nat) : Int) := by
  subst hs hn
  unfold indexOfChar
  have hlen : ¬ (p ++ (a ++ ch :: r)).length ≤ p.length := by simp
  rw [if_neg hlen, List.drop_left, findChar_append_of_not_mem ch a r ha]

theorem indexOfChar_eq_neg_one (s : Str) (ch : Char) (n : Nat) (h : ch ∉ s.drop n) :
    indexOfChar s ch n = -1 := by
  unfold indexOfChar
  split
  · rfl
  · rw [findChar_eq_none ch _ h]

theorem indexOfStr_of_split (s p q r pat : Str) (c : Char) (n : Nat)
    (hs : s = p ++ (q ++ ((c :: pat) ++ r))) (hn : n = p.length) (hq : c ∉ q) :
    indexOfStr s (c :: pat) n = ((p.length + q.length : Nat) : Int) := by
  subst hs hn
  unfold indexOfStr
  have hlen : ¬ (p ++ (q ++ ((c :: pat) ++ r))).length ≤ p.length := by simp
  rw [if_neg hlen, List.drop_left, findStr_append_of_not_mem c pat q r hq]

theorem indexOfStr_eq_neg_one (s pat : Str) (c : Char) (n : Nat) (h : c ∉ s.drop n) :
    indexOfStr s (c :: pat) n = -1 := by
  unfold indexOfStr
  split
  · rfl
  · rw [findStr_eq_none c pat _ h]

theorem substring_of_split (s p a r : Str) (left right : Nat)
    (hs : s = p ++ (a ++ r)) (hl : left = p.length) (hr : right = p.length + a.length) :
    substring s left right = a := by
  subst hs hl hr
  unfold substring
  have h1 : ¬ (p.length + a.length < p.length) := by omega
  simp only [h1, if_false]
  have h2 : ¬ ((p ++ (a ++ r)).length < p.length) := by simp
  rw [if_neg h2]
  have h3 : min (p.length + a.length) (p ++ (a ++ r)).length = (p ++ a).length := by
    simp
  rw [h3, ← List.append_assoc, List.take_left, List.drop_left]


theorem LUTRON_RETURN_eq : LUTRON_RETURN = '~' :: ['O', 'U', 'T', 'P', 'U', 'T', ','] := by
  decide

theorem scan_frame (h : Header) (pre a c l rest : Str) (fuel s : Nat) (b : Bridge)
    (hs : s ≤ pre.length) (hpre : '~' ∉ pre.drop s)
    (ha : ',' ∉ a) (hc : ',' ∉ c) (hl : '\n' ∉ l) :
    telnetListenerScan h
        (pre ++ (LUTRON_RETURN ++ (a ++ ',' :: (c ++ ',' :: (l ++ '\n' :: rest)))))
        (fuel + 1) (s : Int) b
      = telnetListenerScan h
        (pre ++ (LUTRON_RETURN ++ (a ++ ',' :: (c ++ ',' :: (l ++ '\n' :: rest)))))
        fuel ((pre.length + 8 + a.length + 1 + c.length + 1 : Nat) : Int)
        (if toInt c = 1 then applyChange h b (toInt a) (toFloat l) else b) := by
  generalize hbuf :
    pre ++ (LUTRON_RETURN ++ (a ++ ',' :: (c ++ ',' :: (l ++ '\n' :: rest)))) = buf
  have hlen : LUTRON_RETURN.length = 8 := by decide
  have e0 : indexOfStr buf LUTRON_RETURN s = ((pre.length : Nat) : Int) := by
    rw [LUTRON_RETURN_eq]
    have := indexOfStr_of_split buf (pre.take s) (pre.drop s)
      (a ++ ',' :: (c ++ ',' :: (l ++ '\n' :: rest))) ['O', 'U', 'T', 'P', 'U', 'T', ','] '~' s
      (by rw [← hbuf, LUTRON_RETURN_eq, ← List.append_assoc (pre.take s), List.take_append_drop])
      (by simp [hs]) hpre
    rw [this]
    congr 1
    simp
    omega
  have u1 : toUnsigned (((pre.length : Nat) : Int) + ((LUTRON_RETURN.length : Nat) : Int))
      = pre.length + 8 := toUnsigned_of_eq (by rw [hlen]; push_cast; rfl)
  have e1 : indexOfChar buf ',' (pre.length + 8) = ((pre.length + 8 + a.length : Nat) : Int) := by
    have := indexOfChar_of_split buf (pre ++ LUTRON_RETURN) a (c ++ ',' :: (l ++ '\n' :: rest))
      ',' (pre.length + 8) (by rw [← hbuf]; simp) (by simp [hlen]) ha
    rw [this]; simp [hlen]
  have s1 : substring buf (pre.length + 8) (pre.length + 8 + a.length) = a :=
    substring_of_split buf (pre ++ LUTRON_RETURN) a (',' :: (c ++ ',' :: (l ++ '\n' :: rest)))
      _ _ (by rw [← hbuf]; simp) (by simp [hlen]) (by simp [hlen])
  have u2 : toUnsigned (((pre.length + 8 + a.length : Nat) : Int) + 1)
      = pre.length + 8 + a.length + 1 := toUnsigned_of_eq (by push_cast; rfl)
  have e2 : indexOfChar buf ',' (pre.length + 8 + a.length + 1)
      = ((pre.length + 8 + a.length + 1 + c.length : Nat) : Int) := by
    have := indexOfChar_of_split buf (pre ++ (LUTRON_RETURN ++ (a ++ [',']))) c
      (l ++ '\n' :: rest) ',' (pre.length + 8 + a.length + 1)
      (by rw [← hbuf]; simp) (by simp [hlen]; omega) hc
    rw [this]; simp [hlen]; omega
  have s2 : substring buf (pre.length + 8 + a.length + 1)
      (pre.length + 8 + a.length + 1 + c.length) = c :=
    substring_of_split buf (pre ++ (LUTRON_RETURN ++ (a ++ [',']))) c
      (',' :: (l ++ '\n' :: rest)) _ _
      (by rw [← hbuf]; simp) (by simp [hlen]; omega) (by simp [hlen]; omega)
  have u3 : toUnsigned (((pre.length + 8 + a.length + 1 + c.length : Nat) : Int) + 1)
      = pre.length + 8 + a.length + 1 + c.length + 1 := toUnsigned_of_eq (by push_cast; rfl)
  have e3 : indexOfChar buf '\n' (pre.length + 8 + a.length + 1 + c.length + 1)
      = ((pre.length + 8 + a.length + 1 + c.length + 1 + l.length : Nat) : Int) := by
    have := indexOfChar_of_split buf (pre ++ (LUTRON_RETURN ++ (a ++ (',' :: (c ++ [','])))))
      l rest '\n' (pre.length + 8 + a.length + 1 + c.length + 1)
      (by rw [← hbuf]; simp) (by simp [hlen]; omega) hl
    rw [this]; simp [hlen]; omega
  have s3 : substring buf (pre.length + 8 + a.length + 1 + c.length + 1)
      (pre.length + 8 + a.length + 1 + c.length + 1 + l.length) = l :=
    substring_of_split buf (pre ++ (LUTRON_RETURN ++ (a ++ (',' :: (c ++ [','])))))
      l ('\n' :: rest) _ _
      (by rw [← hbuf]; simp) (by simp [hlen]; omega) (by simp [hlen]; omega)
  have n0 : ((pre.length : Nat) : Int) ≠ -1 := by omega
  have n4 : ¬ (((pre.length + 8 + a.length + 1 + c.length + 1 : Nat) : Int) = -1) := by omega
  have c4 : ((pre.length + 8 + a.length + 1 + c.length : Nat) : Int) + 1
      = ((pre.length + 8 + a.length + 1 + c.length + 1 : Nat) : Int) := by push_cast; rfl
  rw [telnetListenerScan]
  simp only [toUnsigned_natCast, e0, n0, if_false, u1, e1, toUnsigned_natCast, s1, u2, e2, s2, u3, e3, s3,
    ne_eq, not_false_eq_true, if_true, c4]
  rw [if_pos n4]

theorem scan_done (h : Header) (buf : Str) (fuel s : Nat) (b : Bridge)
    (hs : '~' ∉ buf.drop s) :
    telnetListenerScan h buf (fuel + 1) (s : Int) b = some b := by
  rw [telnetListenerScan]
  have e0 : indexOfStr buf LUTRON_RETURN s = -1 := by
    rw [LUTRON_RETURN_eq]
    exact indexOfStr_eq_neg_one buf _ '~' s hs
  simp only [toUnsigned_natCast, e0, if_true]


/-! ## Lemmas on numerals -/

theorem digitVal_digitChar (d : Nat) (h : d < 10) : digitVal (digitChar d) = d := by
  interval_cases d <;> decide

theorem isdigit_digitChar (d : Nat) (h : d < 10) : isdigit (digitChar d) = true := by
  interval_cases d <;> decide

theorem isdigit_toNat {c : Char} (h : isdigit c = true) : 48 ≤ c.toNat ∧ c.toNat ≤ 57 := by
  simpa [isdigit] using h

theorem isdigit_ne {c d : Char} (h : isdigit c = true) (hd : isdigit d = false) : c ≠ d := by
  intro e; rw [e, hd] at h; exact Bool.false_ne_true h

theorem isdigit_not_isspace {c : Char} (h : isdigit c = true) : isspace c = false := by
  have h1 := isdigit_toNat h
  have ne : ∀ d : Char, isdigit d = false → (c = d) = False := fun d hd =>
    eq_false (isdigit_ne h hd)
  simp [isspace, ne ' ' (by decide), ne '\t' (by decide), ne '\n' (by decide),
    ne '\x0b' (by decide), ne '\x0c' (by decide), ne '\r' (by decide)]

theorem AllDigits.not_mem {t : Str} (ht : AllDigits t) {d : Char} (hd : isdigit d = false) :
    d ∉ t := fun m => by
  have := ht d m
  rw [hd] at this
  exact Bool.false_ne_true this

theorem digitsVal_foldl (t : Str) (init : Nat) :
    t.foldl (fun acc c => 10 * acc + digitVal c) init = init * 10 ^ t.length + digitsVal t := by
  induction t generalizing init with
  | nil => simp [digitsVal]
  | cons x xs ih =>
    simp only [List.foldl_cons, digitsVal, List.length_cons]
    rw [ih, ih (10 * 0 + digitVal x)]
    ring

theorem digitsVal_cons (x : Char) (xs : Str) :
    digitsVal (x :: xs) = digitVal x * 10 ^ xs.length + digitsVal xs := by
  unfold digitsVal
  rw [List.foldl_cons, digitsVal_foldl]
  simp [digitsVal]

theorem natDigitsAux_spec (fuel : Nat) : ∀ (n : Nat) (acc : Str), n < fuel →
    (AllDigits acc → AllDigits (natDigitsAux fuel n acc)) ∧
    digitsVal (natDigitsAux fuel n acc) = n * 10 ^ acc.length + digitsVal acc := by
  induction fuel with
  | zero => intro n acc h; omega
  | succ fuel ih =>
    intro n acc hn
    have hd : isdigit (digitChar (n % 10)) = true := isdigit_digitChar _ (Nat.mod_lt _ (by omega))
    have hv : digitVal (digitChar (n % 10)) = n % 10 := digitVal_digitChar _ (Nat.mod_lt _ (by omega))
    have hall : AllDigits acc → AllDigits (digitChar (n % 10) :: acc) := by
      intro ha c hc
      rcases List.mem_cons.1 hc with e | m
      · rw [e]; exact hd
      · exact ha c m
    unfold natDigitsAux
    by_cases h0 : n / 10 = 0
    · rw [if_pos h0]
      refine ⟨hall, ?_⟩
      rw [digitsVal_cons, hv]
      have : n % 10 = n := Nat.mod_eq_of_lt (by omega)
      rw [this]
    · rw [if_neg h0]
      have hlt : n / 10 < fuel := by omega
      obtain ⟨h1, h2⟩ := ih (n / 10) (digitChar (n % 10) :: acc) hlt
      refine ⟨fun ha => h1 (hall ha), ?_⟩
      rw [h2, digitsVal_cons, hv, List.length_cons, pow_succ]
      have hdm := Nat.div_add_mod n 10
      calc n / 10 * (10 ^ acc.length * 10) + (n % 10 * 10 ^ acc.length + digitsVal acc)
          = (10 * (n / 10) + n % 10) * 10 ^ acc.length + digitsVal acc := by ring
        _ = n * 10 ^ acc.length + digitsVal acc := by rw [hdm]

theorem natDigits_allDigits (n : Nat) : AllDigits (natDigits n) :=
  (natDigitsAux_spec (n + 1) n [] (Nat.lt_succ_self n)).1 (fun _ hc => by cases hc)

theorem digitsVal_natDigits (n : Nat) : digitsVal (natDigits n) = n := by
  have := (natDigitsAux_spec (n + 1) n [] (Nat.lt_succ_self n)).2
  simpa [digitsVal, natDigits] using this

theorem dropWhile_isspace_of_allDigits (t rest : Str) (ht : AllDigits t) (hne : t ≠ []) :
    (t ++ rest).dropWhile isspace = t ++ rest := by
  cases t with
  | nil => exact absurd rfl hne
  | cons x xs =>
    have := isdigit_not_isspace (ht x (by simp))
    simp [List.dropWhile, this]

theorem splitSign_of_allDigits (t rest : Str) (ht : AllDigits t) (hne : t ≠ []) :
    splitSign (t ++ rest) = (false, t ++ rest) := by
  cases t with
  | nil => exact absurd rfl hne
  | cons x xs =>
    have hx := ht x (by simp)
    have h1 : x ≠ '-' := isdigit_ne hx (by decide)
    have h2 : x ≠ '+' := isdigit_ne hx (by decide)
    simp [splitSign, h1, h2]

theorem takeWhile_isdigit (t rest : Str) (ht : AllDigits t)
    (hr : ∀ c ∈ rest.head?, isdigit c = false) :
    (t ++ rest).takeWhile isdigit = t := by
  rw [List.takeWhile_append_of_pos ht]
  cases rest with
  | nil => simp
  | cons c r => simp [List.takeWhile, hr c (by simp)]

theorem dropWhile_isdigit (t rest : Str) (ht : AllDigits t)
    (hr : ∀ c ∈ rest.head?, isdigit c = false) :
    (t ++ rest).dropWhile isdigit = rest := by
  rw [List.dropWhile_append_of_pos ht]
  cases rest with
  | nil => simp
  | cons c r => simp [List.dropWhile, hr c (by simp)]

theorem natDigits_ne_nil (n : Nat) : natDigits n ≠ [] := by
  unfold natDigits
  rw [natDigitsAux]
  split
  · simp
  · intro h
    have := (natDigitsAux_spec n (n / 10) [digitChar (n % 10)] (by omega)).2
    rw [h] at this
    simp [digitsVal] at this
    omega

theorem toInt_natDigits (n : Nat) (hn : n ≤ 2147483647) : toInt (natDigits n) = n := by
  have ha := natDigits_allDigits n
  have hne := natDigits_ne_nil n
  have e1 := dropWhile_isspace_of_allDigits _ [] ha hne
  have e2 := splitSign_of_allDigits _ [] ha hne
  have e3 := takeWhile_isdigit _ [] ha (by simp)
  simp only [List.append_nil] at e1 e2 e3
  unfold toInt
  simp only [e1, e2, e3, digitsVal_natDigits]
  unfold clampLong
  simp only [Bool.false_eq_true, if_false]
  rw [if_neg (by omega), if_neg (by omega)]

theorem toInt_fmtInt (id : Int) (h1 : -2147483648 ≤ id) (h2 : id ≤ 2147483647) :
    toInt (fmtInt id) = id := by
  unfold fmtInt
  by_cases hneg : id < 0
  · rw [if_pos hneg]
    have ha := natDigits_allDigits id.natAbs
    have hne := natDigits_ne_nil id.natAbs
    have e3 := takeWhile_isdigit _ [] ha (by simp)
    simp only [List.append_nil] at e3
    unfold toInt
    have e1 : ('-' :: natDigits id.natAbs).dropWhile isspace = '-' :: natDigits id.natAbs := by
      simp [List.dropWhile, show isspace '-' = false by decide]
    simp only [e1, splitSign, if_true, e3, digitsVal_natDigits]
    unfold clampLong
    rw [if_neg (by omega), if_neg (by omega)]
    omega
  · rw [if_neg hneg, toInt_natDigits _ (by omega)]
    omega

theorem fmtInt_not_mem (id : Int) {d : Char} (hd : isdigit d = false) (hm : d ≠ '-') :
    d ∉ fmtInt id := by
  unfold fmtInt
  split
  · intro m
    rcases List.mem_cons.1 m with e | m
    · exact hm e
    · exact (natDigits_allDigits _).not_mem hd m
  · exact (natDigits_allDigits _).not_mem hd

theorem tolower_of_isdigit {c : Char} (h : isdigit c = true) : tolower c = c := by
  have := isdigit_toNat h
  unfold tolower
  rw [if_neg (by omega)]

theorem take3_ne (r : Str) (c0 c1 c2 : Char) (h : ∀ c ∈ r.head?, tolower c ≠ c0) :
    (r.take 3).map tolower ≠ [c0, c1, c2] := by
  cases r with
  | nil => simp
  | cons c t =>
    intro e
    simp only [List.take_succ_cons, List.map_cons, List.cons.injEq] at e
    exact h c (by simp) e.1

theorem toFloat_of_numeral (r : Str) (hhead : StartsNumeral r) (hhex : hexMagnitude r = none) :
    toFloat r = match decimalMagnitude r with
      | some q => float32 false q
      | none => Level.finite false 0 := by
  have hlow : ∀ c ∈ r.head?, tolower c = c ∧ isspace c = false ∧ c ≠ '-' ∧ c ≠ '+' := by
    intro c hc
    rcases hhead c hc with hd | rfl
    · exact ⟨tolower_of_isdigit hd, isdigit_not_isspace hd, isdigit_ne hd (by decide),
        isdigit_ne hd (by decide)⟩
    · decide
  have e1 : r.dropWhile isspace = r := by
    cases r with
    | nil => rfl
    | cons c t => simp [List.dropWhile, (hlow c (by simp)).2.1]
  have e2 : splitSign r = (false, r) := by
    cases r with
    | nil => rfl
    | cons c t => simp [splitSign, (hlow c (by simp)).2.2.1, (hlow c (by simp)).2.2.2]
  have n1 : (r.take 3).map tolower ≠ ['i', 'n', 'f'] := by
    apply take3_ne
    intro c hc
    rw [(hlow c hc).1]
    rcases hhead c hc with hd | rfl
    · exact isdigit_ne hd (by decide)
    · decide
  have n2 : (r.take 3).map tolower ≠ ['n', 'a', 'n'] := by
    apply take3_ne
    intro c hc
    rw [(hlow c hc).1]
    rcases hhead c hc with hd | rfl
    · exact isdigit_ne hd (by decide)
    · decide
  unfold toFloat
  simp only [e1, e2, if_neg n1, if_neg n2, hhex]

theorem hexMagnitude_of_decimal (whole rest : Str) (hw : AllDigits whole) :
    hexMagnitude (whole ++ '.' :: rest) = none := by
  cases whole with
  | nil =>
    cases rest with
    | nil => rfl
    | cons c t => simp [hexMagnitude]
  | cons d ws =>
    cases ws with
    | nil => simp [hexMagnitude]
    | cons d2 ws2 =>
      have hd2 : isdigit d2 = true := hw d2 (by simp)
      have h1 : d2 ≠ 'x' := isdigit_ne hd2 (by decide)
      have h2 : d2 ≠ 'X' := isdigit_ne hd2 (by decide)
      simp [hexMagnitude, h1, h2]

theorem hexMagnitude_of_digits (whole : Str) (hw : AllDigits whole) :
    hexMagnitude whole = none := by
  cases whole with
  | nil => rfl
  | cons d ws =>
    cases ws with
    | nil => rfl
    | cons d2 ws2 =>
      have hd2 : isdigit d2 = true := hw d2 (by simp)
      have h1 : d2 ≠ 'x' := isdigit_ne hd2 (by decide)
      have h2 : d2 ≠ 'X' := isdigit_ne hd2 (by decide)
      simp [hexMagnitude, h1, h2]

theorem decimalMagnitude_of_decimal (whole frac rest : Str) (hw : AllDigits whole)
    (hf : AllDigits frac) (hr : ∀ c ∈ rest.head?, isdigit c = false ∧ c ≠ 'e' ∧ c ≠ 'E') :
    decimalMagnitude (whole ++ '.' :: (frac ++ rest))
      = if whole = [] ∧ frac = [] then none else some (decimalValue whole frac) := by
  have e3 := takeWhile_isdigit whole ('.' :: (frac ++ rest)) hw (by simp; decide)
  have e4 := dropWhile_isdigit whole ('.' :: (frac ++ rest)) hw (by simp; decide)
  have e5 := takeWhile_isdigit frac rest hf (fun c hc => (hr c hc).1)
  have e6 := dropWhile_isdigit frac rest hf (fun c hc => (hr c hc).1)
  have e7 : exponentOf rest = 0 := by
    cases rest with
    | nil => rfl
    | cons c r =>
      have := hr c (by simp)
      simp [exponentOf, this.2.1, this.2.2]
  unfold decimalMagnitude
  simp only [e3, e4, e5, e6, e7, if_true]
  by_cases hz : whole = [] ∧ frac = []
  · rw [if_pos hz, if_pos hz]
  · rw [if_neg hz, if_neg hz]
    simp [decimalValue]

theorem levelOfDecimal_nil : levelOfDecimal [] [] = Level.finite false 0 := by decide

theorem toFloat_decimal (whole frac rest : Str) (hw : AllDigits whole) (hf : AllDigits frac)
    (hr : ∀ c ∈ rest.head?, isdigit c = false ∧ c ≠ 'e' ∧ c ≠ 'E') :
    toFloat (whole ++ '.' :: (frac ++ rest)) = levelOfDecimal whole frac := by
  have hhead : StartsNumeral (whole ++ '.' :: (frac ++ rest)) := by
    intro c hc
    cases whole with
    | nil => right; simpa using hc.symm
    | cons x xs =>
      left
      have : x = c := by simpa using hc
      rw [← this]
      exact hw x (by simp)
  rw [toFloat_of_numeral _ hhead (hexMagnitude_of_decimal whole _ hw),
    decimalMagnitude_of_decimal whole frac rest hw hf hr]
  by_cases hz : whole = [] ∧ frac = []
  · rw [if_pos hz]
    obtain ⟨rfl, rfl⟩ := hz
    exact levelOfDecimal_nil.symm
  · rw [if_neg hz]
    rfl

theorem toFloat_integer (whole : Str) (hw : AllDigits whole) :
    toFloat whole = levelOfDecimal whole [] := by
  have hhead : StartsNumeral whole := by
    intro c hc
    cases whole with
    | nil => simp at hc
    | cons x xs =>
      left
      have : x = c := by simpa using hc
      rw [← this]
      exact hw x (by simp)
  have e3 : whole.takeWhile isdigit = whole := by
    simpa using takeWhile_isdigit whole [] hw (by simp)
  have e4 : whole.dropWhile isdigit = [] := by
    simpa using dropWhile_isdigit whole [] hw (by simp)
  rw [toFloat_of_numeral _ hhead (hexMagnitude_of_digits whole hw)]
  unfold decimalMagnitude
  simp only [e3, e4]
  by_cases hz : whole = []
  · subst hz
    simp only [and_self, if_true]
    exact levelOfDecimal_nil.symm
  · simp [hz, exponentOf, levelOfDecimal, decimalValue]

theorem scan_last_frame (h : Header) (pre a c l rest : Str) (fuel s : Nat) (b : Bridge)
    (hs : s ≤ pre.length) (hpre : '~' ∉ pre.drop s)
    (ha : ',' ∉ a) (hc : ',' ∉ c) (hl : '\n' ∉ l) (hl2 : '~' ∉ l) (hrest : '~' ∉ rest) :
    telnetListenerScan h
        (pre ++ (LUTRON_RETURN ++ (a ++ ',' :: (c ++ ',' :: (l ++ '\n' :: rest)))))
        (fuel + 2) (s : Int) b
      = some (if toInt c = 1 then applyChange h b (toInt a) (toFloat l) else b) := by
  rw [scan_frame h pre a c l rest (fuel + 1) s b hs hpre ha hc hl]
  apply scan_done
  have hlen : LUTRON_RETURN.length = 8 := by decide
  have hsplit : pre ++ (LUTRON_RETURN ++ (a ++ ',' :: (c ++ ',' :: (l ++ '\n' :: rest))))
      = (pre ++ (LUTRON_RETURN ++ (a ++ ',' :: (c ++ [',']))))
        ++ (l ++ '\n' :: rest) := by simp
  rw [hsplit, List.drop_left' (by simp [hlen]; omega)]
  intro m
  rcases List.mem_append.1 m with m | m
  · exact hl2 m
  · rcases List.mem_cons.1 m with e | m
    · exact absurd e (by decide)
    · exact hrest m

theorem mapFind_mapAssign (k : Int) (v : LUTRON_DEVICE) (m : DEVICE_MAP) :
    mapFind k (mapAssign k v m) = some v := by
  induction m with
  | nil => simp [mapAssign, mapFind]
  | cons e rest ih =>
    unfold mapAssign
    by_cases h1 : k < e.1
    · simp [h1, mapFind]
    · by_cases h2 : k = e.1
      · simp [h2, mapFind]
      · have h3 : ¬ e.1 = k := fun x => h2 x.symm
        simp [h1, h2, mapFind, h3, ih]

theorem changeFrame_shape (idText cmdText whole frac : Str) :
    frameText idText cmdText (whole ++ ['.'] ++ frac)
      = [] ++ (LUTRON_RETURN ++ (idText ++ ',' :: (cmdText ++ ',' ::
          ((whole ++ '.' :: (frac ++ ['\r'])) ++ '\n' :: [])))) := by
  simp [frameText, CRLF]

theorem natDigits_not_mem (n : Nat) {d : Char} (hd : isdigit d = false) : d ∉ natDigits n :=
  (natDigits_allDigits n).not_mem hd

theorem digitsVal_append (a b : Str) :
    digitsVal (a ++ b) = digitsVal a * 10 ^ b.length + digitsVal b := by
  unfold digitsVal
  rw [List.foldl_append, digitsVal_foldl]
  rfl

theorem roundHalfEven_spec (a d : Nat) (hd : 0 < d) :
    2 * (roundHalfEven a d * d) ≤ 2 * a + d ∧ 2 * a ≤ 2 * (roundHalfEven a d * d) + d ∧
      ((2 * (roundHalfEven a d * d) = 2 * a + d ∨ 2 * a = 2 * (roundHalfEven a d * d) + d) →
        roundHalfEven a d % 2 = 0) := by
  have hdm := Nat.div_add_mod a d
  have hr := Nat.mod_lt a hd
  have hk : a / d * d = d * (a / d) := Nat.mul_comm _ _
  have hk1 : (a / d + 1) * d = d * (a / d) + d := by ring
  unfold roundHalfEven
  by_cases h1 : 2 * (a % d) < d
  · rw [if_pos h1, hk]
    refine ⟨by omega, by omega, ?_⟩
    rintro (h | h) <;> omega
  · rw [if_neg h1]
    by_cases h2 : d < 2 * (a % d)
    · rw [if_pos h2, hk1]
      refine ⟨by omega, by omega, ?_⟩
      rintro (h | h) <;> omega
    · rw [if_neg h2]
      by_cases h3 : a / d % 2 = 0
      · rw [if_pos h3, hk]
        exact ⟨by omega, by omega, fun _ => h3⟩
      · rw [if_neg h3, hk1]
        exact ⟨by omega, by omega, fun _ => by omega⟩

theorem isNearestEven_roundHalfEven (mag : ℚ) (prec : Nat) :
    IsNearestEven (|mag| * 10 ^ prec) (roundHalfEven (mag.num.natAbs * 10 ^ prec) mag.den) := by
  obtain ⟨h1, h2, h3⟩ := roundHalfEven_spec (mag.num.natAbs * 10 ^ prec) mag.den mag.den_pos
  generalize roundHalfEven (mag.num.natAbs * 10 ^ prec) mag.den = n at h1 h2 h3
  have hden : (0 : ℚ) < (mag.den : ℚ) := by exact_mod_cast mag.den_pos
  have hnum : ((mag.num.natAbs : ℕ) : ℚ) = |mag| * mag.den := by
    have hd : |(mag.den : ℚ)| = (mag.den : ℚ) := abs_of_pos hden
    rw [← hd, ← abs_mul, Rat.mul_den_eq_num, ← Int.cast_natCast, Int.cast_natAbs]
    simp
  have hA : ((mag.num.natAbs * 10 ^ prec : ℕ) : ℚ) = |mag| * 10 ^ prec * mag.den := by
    push_cast
    rw [hnum]
    ring
  generalize mag.num.natAbs * 10 ^ prec = A at h1 h2 h3 hA
  generalize |mag| * 10 ^ prec = x at hA
  generalize mag.den = D at h1 h2 h3 hA hden
  have c1 : (2 * ((n : ℚ) * D)) ≤ 2 * (A : ℚ) + D := by exact_mod_cast h1
  have c2 : (2 * (A : ℚ)) ≤ 2 * ((n : ℚ) * D) + D := by exact_mod_cast h2
  rw [hA] at c1 c2
  refine ⟨?_, ?_, ?_⟩
  · have : (2 * (n : ℚ) - 1) * D ≤ (2 * x) * D := by linarith
    exact le_of_mul_le_mul_right this hden
  · have : (2 * x) * D ≤ (2 * (n : ℚ) + 1) * D := by linarith
    exact le_of_mul_le_mul_right this hden
  · rintro (h | h)
    · apply h3
      left
      have : (2 * ((n : ℚ) * D)) = 2 * (A : ℚ) + D := by
        rw [hA]; linear_combination (-(D : ℚ)) * h
      exact_mod_cast this
    · apply h3
      right
      have : (2 * (A : ℚ)) = 2 * ((n : ℚ) * D) + D := by
        rw [hA]; linear_combination (D : ℚ) * h
      exact_mod_cast this

theorem fracDigits_length (w n : Nat) : (fracDigits w n).length = w := by
  induction w with
  | zero => rfl
  | succ w ih => simp [fracDigits, ih]

theorem fracDigits_allDigits (w n : Nat) : AllDigits (fracDigits w n) := by
  induction w with
  | zero => intro c hc; cases hc
  | succ w ih =>
    intro c hc
    rcases List.mem_cons.1 hc with e | m
    · rw [e]; exact isdigit_digitChar _ (Nat.mod_lt _ (by omega))
    · exact ih c m

theorem digitsVal_fracDigits (w n : Nat) : digitsVal (fracDigits w n) = n % 10 ^ w := by
  induction w with
  | zero => simp [fracDigits, digitsVal, Nat.mod_one]
  | succ w ih =>
    rw [fracDigits, digitsVal_cons, digitVal_digitChar _ (Nat.mod_lt _ (by omega)), ih,
      fracDigits_length, Nat.mod_pow_succ]
    ring

theorem natDigitsAux_head (fuel : Nat) : ∀ (n : Nat) (acc : Str), 0 < n → n < fuel →
    ∃ c t, natDigitsAux fuel n acc = c :: t ∧ c ≠ '0' := by
  induction fuel with
  | zero => intro n acc _ h; omega
  | succ fuel ih =>
    intro n acc hpos hlt
    unfold natDigitsAux
    by_cases h0 : n / 10 = 0
    · rw [if_pos h0]
      refine ⟨_, _, rfl, ?_⟩
      have hn : n % 10 = n := Nat.mod_eq_of_lt (by omega)
      rw [hn]
      have hn10 : n < 10 := by omega
      interval_cases n <;> decide
    · rw [if_neg h0]
      exact ih (n / 10) _ (by omega) (by omega)

theorem natDigits_head (n : Nat) : (natDigits n).head? = some '0' → natDigits n = ['0'] := by
  intro hh
  by_cases hn : n = 0
  · subst hn; rfl
  · obtain ⟨c, t, e, hc⟩ := natDigitsAux_head (n + 1) n [] (by omega) (by omega)
    unfold natDigits at hh ⊢
    rw [e] at hh
    simp at hh
    exact absurd hh hc

theorem fmtFixed_spec (prec : Nat) (neg : Bool) (mag : ℚ) :
    IsFixedText prec neg |mag| (fmtFixed prec (Level.finite neg mag)) := by
  refine ⟨natDigits (roundHalfEven (mag.num.natAbs * 10 ^ prec) mag.den / 10 ^ prec),
    fracDigits prec (roundHalfEven (mag.num.natAbs * 10 ^ prec) mag.den % 10 ^ prec),
    rfl, natDigits_allDigits _, fracDigits_allDigits _ _, natDigits_ne_nil _,
    natDigits_head _, fracDigits_length _ _, ?_⟩
  have hval : digitsVal
      (natDigits (roundHalfEven (mag.num.natAbs * 10 ^ prec) mag.den / 10 ^ prec) ++
        fracDigits prec (roundHalfEven (mag.num.natAbs * 10 ^ prec) mag.den % 10 ^ prec))
      = roundHalfEven (mag.num.natAbs * 10 ^ prec) mag.den := by
    rw [digitsVal_append, digitsVal_natDigits, digitsVal_fracDigits, fracDigits_length,
      Nat.mod_mod, Nat.div_add_mod']
  rw [hval]
  exact isNearestEven_roundHalfEven mag prec

theorem isFixedText_point (neg : Bool) (mag : ℚ) (t : Str) (prec : Nat) (hp : prec ≠ 0)
    (h : IsFixedText prec neg mag t) : '.' ∈ t := by
  obtain ⟨whole, frac, rfl, _⟩ := h
  simp [hp]

theorem fmtFixed_zero_no_point (x : Level) : '.' ∉ fmtFixed 0 x := by
  intro m
  cases x with
  | finite neg mag =>
    simp only [fmtFixed, if_true, List.append_nil] at m
    rcases List.mem_append.1 m with m | m
    · split at m
      · exact absurd (List.mem_singleton.1 m) (by decide)
      · cases m
    · exact natDigits_not_mem _ (by decide) m
  | inf neg => cases neg <;> revert m <;> decide
  | nan neg => cases neg <;> revert m <;> decide

/-- The float read from a decimal text is finite and not negative, or it is `+inf`. -/
theorem levelOfDecimal_cases (whole frac : Str) :
    (∃ mag : ℚ, levelOfDecimal whole frac = Level.finite false mag) ∨
      levelOfDecimal whole frac = Level.inf false := by
  unfold levelOfDecimal float32
  cases (roundBinary 53 (-1074) 1024 (decimalValue whole frac)).bind
      (roundBinary 24 (-149) 128) with
  | none => exact Or.inr rfl
  | some m => exact Or.inl ⟨m, rfl⟩

/-- The text that `printf` with `%.<prec>f` gives for the float read from a decimal text:
the exact value of the float rounded to `prec` decimals, or `inf`. -/
theorem fixedText_levelOfDecimal (prec : Nat) (whole frac : Str) :
    (∃ mag : ℚ, levelOfDecimal whole frac = Level.finite false mag ∧
        IsFixedText prec false |mag| (fmtFixed prec (levelOfDecimal whole frac))) ∨
      (levelOfDecimal whole frac = Level.inf false ∧
        fmtFixed prec (levelOfDecimal whole frac) = ['i', 'n', 'f']) := by
  rcases levelOfDecimal_cases whole frac with ⟨mag, hm⟩ | hi
  · exact Or.inl ⟨mag, hm, by rw [hm]; exact fmtFixed_spec prec false mag⟩
  · exact Or.inr ⟨hi, by rw [hi]; rfl⟩

theorem level_not_mem (whole frac : Str) (hw : AllDigits whole) (hf : AllDigits frac)
    {d : Char} (hd : isdigit d = false) (h1 : d ≠ '.') (h2 : d ≠ '\r') :
    d ∉ whole ++ '.' :: (frac ++ ['\r']) := by
  intro m
  rcases List.mem_append.1 m with m | m
  · exact hw.not_mem hd m
  · rcases List.mem_cons.1 m with e | m
    · exact h1 e
    · rcases List.mem_append.1 m with m | m
      · exact hf.not_mem hd m
      · exact h2 (List.mem_singleton.1 m)

theorem toFloat_level (whole frac : Str) (hw : AllDigits whole) (hf : AllDigits frac) :
    toFloat (whole ++ '.' :: (frac ++ ['\r'])) = levelOfDecimal whole frac :=
  toFloat_decimal whole frac ['\r'] hw hf (by simp; decide)

/-- The scan of one event line `~OUTPUT,<id>,<cmd>,<whole>.<frac>` CRLF. -/
theorem scan_single_frame (h : Header) (b : Bridge) (id cmd : Int) (whole frac : Str) (k : Nat)
    (hw : AllDigits whole) (hf : AllDigits frac) :
    telnetListener h (k + 2) b (frameText (fmtInt id) (fmtInt cmd) (whole ++ ['.'] ++ frac))
      = some (if toInt (fmtInt cmd) = 1
          then applyChange h b (toInt (fmtInt id)) (levelOfDecimal whole frac) else b) := by
  unfold telnetListener
  rw [if_neg (by simp [frameText, LUTRON_RETURN_eq]), changeFrame_shape]
  have := scan_last_frame h [] (fmtInt id) (fmtInt cmd) (whole ++ '.' :: (frac ++ ['\r'])) []
    k 0 b (by simp) (by simp) (fmtInt_not_mem id (by decide) (by decide))
    (fmtInt_not_mem cmd (by decide) (by decide))
    (level_not_mem whole frac hw hf (by decide) (by decide) (by decide))
    (level_not_mem whole frac hw hf (by decide) (by decide) (by decide)) (by simp)
  rw [toFloat_level whole frac hw hf] at this
  exact this

theorem substring_to_end (s p l : Str) (left right : Nat)
    (hs : s = p ++ l) (hl : left = p.length) (hr : s.length ≤ right) :
    substring s left right = l := by
  subst hs hl
  unfold substring
  have h0 : p.length ≤ right := by
    have : p.length ≤ (p ++ l).length := by simp
    omega
  have h1 : ¬ (right < p.length) := by omega
  simp only [h1, if_false]
  have h2 : ¬ ((p ++ l).length < p.length) := by simp
  rw [if_neg h2, Nat.min_eq_right hr, List.take_length, List.drop_left]

theorem scan_unterminated (h : Header) (pre a c l : Str) (fuel s : Nat) (b : Bridge)
    (hs : s ≤ pre.length) (hpre : '~' ∉ pre.drop s)
    (ha : ',' ∉ a) (hc : ',' ∉ c) (hl : '\n' ∉ l) (hl2 : '~' ∉ l)
    (hsize : (pre ++ (LUTRON_RETURN ++ (a ++ ',' :: (c ++ ',' :: l)))).length < 4294967296) :
    telnetListenerScan h (pre ++ (LUTRON_RETURN ++ (a ++ ',' :: (c ++ ',' :: l))))
        (fuel + 2) (s : Int) b
      = some (if toInt c = 1 then applyChange h b (toInt a) (toFloat l) else b) := by
  generalize hbuf : pre ++ (LUTRON_RETURN ++ (a ++ ',' :: (c ++ ',' :: l))) = buf at hsize
  have hlen : LUTRON_RETURN.length = 8 := by decide
  have hsplit : buf = (pre ++ (LUTRON_RETURN ++ (a ++ ',' :: (c ++ [','])))) ++ l := by
    rw [← hbuf]; simp
  have hdrop : buf.drop (pre.length + 8 + a.length + 1 + c.length + 1) = l := by
    rw [hsplit, List.drop_left' (by simp [hlen]; omega)]
  have e0 : indexOfStr buf LUTRON_RETURN s = ((pre.length : Nat) : Int) := by
    rw [LUTRON_RETURN_eq]
    have := indexOfStr_of_split buf (pre.take s) (pre.drop s)
      (a ++ ',' :: (c ++ ',' :: l)) ['O', 'U', 'T', 'P', 'U', 'T', ','] '~' s
      (by rw [← hbuf, LUTRON_RETURN_eq, ← List.append_assoc (pre.take s), List.take_append_drop])
      (by simp [hs]) hpre
    rw [this]
    congr 1
    simp
    omega
  have u1 : toUnsigned (((pre.length : Nat) : Int) + ((LUTRON_RETURN.length : Nat) : Int))
      = pre.length + 8 := toUnsigned_of_eq (by rw [hlen]; push_cast; rfl)
  have e1 : indexOfChar buf ',' (pre.length + 8) = ((pre.length + 8 + a.length : Nat) : Int) := by
    have := indexOfChar_of_split buf (pre ++ LUTRON_RETURN) a (c ++ ',' :: l)
      ',' (pre.length + 8) (by rw [← hbuf]; simp) (by simp [hlen]) ha
    rw [this]; simp [hlen]
  have s1 : substring buf (pre.length + 8) (pre.length + 8 + a.length) = a :=
    substring_of_split buf (pre ++ LUTRON_RETURN) a (',' :: (c ++ ',' :: l))
      _ _ (by rw [← hbuf]; simp) (by simp [hlen]) (by simp [hlen])
  have u2 : toUnsigned (((pre.length + 8 + a.length : Nat) : Int) + 1)
      = pre.length + 8 + a.length + 1 := toUnsigned_of_eq (by push_cast; rfl)
  have e2 : indexOfChar buf ',' (pre.length + 8 + a.length + 1)
      = ((pre.length + 8 + a.length + 1 + c.length : Nat) : Int) := by
    have := indexOfChar_of_split buf (pre ++ (LUTRON_RETURN ++ (a ++ [',']))) c l
      ',' (pre.length + 8 + a.length + 1)
      (by rw [← hbuf]; simp) (by simp [hlen]; omega) hc
    rw [this]; simp [hlen]; omega
  have s2 : substring buf (pre.length + 8 + a.length + 1)
      (pre.length + 8 + a.length + 1 + c.length) = c :=
    substring_of_split buf (pre ++ (LUTRON_RETURN ++ (a ++ [',']))) c (',' :: l) _ _
      (by rw [← hbuf]; simp) (by simp [hlen]; omega) (by simp [hlen]; omega)
  have u3 : toUnsigned (((pre.length + 8 + a.length + 1 + c.length : Nat) : Int) + 1)
      = pre.length + 8 + a.length + 1 + c.length + 1 := toUnsigned_of_eq (by push_cast; rfl)
  have e3 : indexOfChar buf '\n' (pre.length + 8 + a.length + 1 + c.length + 1) = -1 :=
    indexOfChar_eq_neg_one buf '\n' _ (by rw [hdrop]; exact hl)
  have u4 : toUnsigned (-1) = 4294967295 := by decide
  have s3 : substring buf (pre.length + 8 + a.length + 1 + c.length + 1) 4294967295 = l :=
    substring_to_end buf _ l _ _ hsplit (by simp [hlen]; omega) (by omega)
  have n0 : ((pre.length : Nat) : Int) ≠ -1 := by omega
  have n4 : ¬ (((pre.length + 8 + a.length + 1 + c.length + 1 : Nat) : Int) = -1) := by omega
  have c4 : ((pre.length + 8 + a.length + 1 + c.length : Nat) : Int) + 1
      = ((pre.length + 8 + a.length + 1 + c.length + 1 : Nat) : Int) := by push_cast; rfl
  rw [telnetListenerScan]
  simp only [toUnsigned_natCast, e0, n0, if_false, u1, e1, s1, u2, e2, s2, u3, e3, u4, s3,
    ne_eq, not_false_eq_true, if_true, c4]
  rw [if_pos n4]
  exact scan_done h buf fuel _ _ (by rw [hdrop]; exact hl2)

theorem listener_no_marker (h : Header) (b : Bridge) (t : Str) (k : Nat) (ht : '~' ∉ t) :
    telnetListener h (k + 1) b t = some b := by
  unfold telnetListener
  split
  · rfl
  · exact scan_done h t k 0 b (by simpa using ht)


theorem changeFrame_result (h : Header) (b : Bridge) (id : Int) (whole frac : Str) (k : Nat)
    (hlo : -2147483648 ≤ id) (hhi : id ≤ 2147483647)
    (hw : AllDigits whole) (hf : AllDigits frac) :
    telnetListener h (k + 2) b (changeFrame id whole frac)
      = some (applyChange h b id (levelOfDecimal whole frac)) := by
  have := scan_single_frame h b id 1 whole frac k hw hf
  rw [toInt_fmtInt id hlo hhi, show fmtInt 1 = ['1'] by decide,
    show toInt ['1'] = 1 by decide, if_pos rfl] at this
  exact this

/-- The listener on a change frame cut off inside its level text `l`. -/
theorem listener_cut_level (h : Header) (b : Bridge) (id : Int) (l : Str) (k : Nat)
    (hlo : -2147483648 ≤ id) (hhi : id ≤ 2147483647) (hl : '\n' ∉ l) (hl2 : '~' ∉ l)
    (hsize : (LUTRON_RETURN ++ (fmtInt id ++ ',' :: (['1'] ++ ',' :: l))).length
      < 4294967296) :
    telnetListener h (k + 2) b (LUTRON_RETURN ++ (fmtInt id ++ ',' :: (['1'] ++ ',' :: l)))
      = some (applyChange h b id (toFloat l)) := by
  unfold telnetListener
  rw [if_neg (by simp [LUTRON_RETURN_eq])]
  have := scan_unterminated h [] (fmtInt id) ['1'] l k 0 b
    (by simp) (by simp) (fmtInt_not_mem id (by decide) (by decide)) (by decide)
    hl hl2 (by simpa using hsize)
  rw [toInt_fmtInt id hlo hhi, show toInt ['1'] = 1 by decide, if_pos rfl] at this
  simpa using this

theorem applyChange_level_inj (h : Header) (b : Bridge) (id : Int) (l1 l2 : Level)
    (he : applyChange h b id l1 = applyChange h b id l2) : l1 = l2 := by
  have hm : mapFind id (applyChange h b id l1).deviceMap
      = mapFind id (applyChange h b id l2).deviceMap := by rw [he]
  simp only [applyChange, mapFind_mapAssign, Option.some.injEq, LUTRON_DEVICE.mk.injEq] at hm
  exact hm.2.1

/-- C2 (amended): the listener keeps no text from one drain to the next.  When a change frame
is split after `~OUTPUT,<id>,1,`, the first chunk is applied as a change of `id` to the level
read from the part of the level text it carries, and the second chunk has no effect.  The
outcome is that of the frame received in one drain exactly when that part reads as the same
`float` as the whole level text, as it does when the split falls inside the CRLF. -/
theorem listener_split_after_command (h : Header) (b : Bridge) (id : Int)
    (whole frac A B : Str) (k : Nat)
    (hlo : -2147483648 ≤ id) (hhi : id ≤ 2147483647)
    (hw : AllDigits whole) (hf : AllDigits frac)
    (hsplit : changeFrame id whole frac = A ++ B) (hB : B ≠ [])
    (hA : (LUTRON_RETURN ++ fmtInt id ++ ",1,".toList).length ≤ A.length)
    (hsize : (changeFrame id whole frac).length < 2147483648) :
    (telnetListener h (k + 2) b A).bind (fun b1 => telnetListener h (k + 2) b1 B)
        = some (applyChange h b id (toFloat (levelPart id A))) ∧
      telnetListener h (k + 2) b (changeFrame id whole frac)
        = some (applyChange h b id (levelOfDecimal whole frac)) ∧
      ((telnetListener h (k + 2) b A).bind (fun b1 => telnetListener h (k + 2) b1 B)
          = telnetListener h (k + 2) b (changeFrame id whole frac)
        ↔ toFloat (levelPart id A) = levelOfDecimal whole frac) ∧
      (B.length ≤ 2 → toFloat (levelPart id A) = levelOfDecimal whole frac) := by
  have hres := changeFrame_result h b id whole frac k hlo hhi hw hf
  have hframe : changeFrame id whole frac
      = (LUTRON_RETURN ++ fmtInt id ++ ",1,".toList) ++
        ((whole ++ '.' :: (frac ++ ['\r'])) ++ ['\n']) := by
    simp [changeFrame, frameText, CRLF]
  -- the first chunk is the head of the frame and a part `p` of the level text
  obtain ⟨p, hAp, hpB⟩ : ∃ p, A = (LUTRON_RETURN ++ fmtInt id ++ ",1,".toList) ++ p ∧
      (whole ++ '.' :: (frac ++ ['\r'])) ++ ['\n'] = p ++ B := by
    rw [hframe] at hsplit
    rcases List.append_eq_append_iff.1 hsplit with ⟨a', h1, h2⟩ | ⟨c', h1, h2⟩
    · exact ⟨a', h1, h2⟩
    · have hlen := congrArg List.length h1
      rw [List.length_append A c'] at hlen
      have hc' : c' = [] := List.length_eq_zero.1 (by omega)
      subst hc'
      refine ⟨[], ?_, ?_⟩
      · rw [h1]; simp
      · rw [h2]; simp
  have hpart : levelPart id A = p := by
    rw [levelPart, hAp, List.drop_left]
  have hlvl : ∀ d : Char, isdigit d = false → d ≠ '.' → d ≠ '\r' →
      d ∉ whole ++ '.' :: (frac ++ ['\r']) :=
    fun d hd h1 h2 => level_not_mem whole frac hw hf hd h1 h2
  have hpre : p <+: whole ++ '.' :: (frac ++ ['\r']) := by
    have h1 : p <+: (whole ++ '.' :: (frac ++ ['\r'])) ++ ['\n'] := by
      rw [hpB]; exact List.prefix_append p B
    have h2 : (whole ++ '.' :: (frac ++ ['\r'])) <+: (whole ++ '.' :: (frac ++ ['\r'])) ++ ['\n'] :=
      List.prefix_append _ _
    have hlen := congrArg List.length hpB
    rw [List.length_append, List.length_append] at hlen
    have hBlen : B.length ≠ 0 := fun e => hB (List.length_eq_zero.1 e)
    exact List.prefix_of_prefix_length_le h1 h2 (by simp at hlen ⊢; omega)
  have hp1 : '\n' ∉ p := fun m => hlvl _ (by decide) (by decide) (by decide) (hpre.subset m)
  have hp2 : '~' ∉ p := fun m => hlvl _ (by decide) (by decide) (by decide) (hpre.subset m)
  have hB2 : '~' ∉ B := by
    intro m
    have hsuf : B <:+ (whole ++ '.' :: (frac ++ ['\r'])) ++ ['\n'] := by
      rw [hpB]; exact List.suffix_append p B
    rcases List.mem_append.1 (hsuf.subset m) with m | m
    · exact hlvl _ (by decide) (by decide) (by decide) m
    · revert m; decide
  have hAshape : A = LUTRON_RETURN ++ (fmtInt id ++ ',' :: (['1'] ++ ',' :: p)) := by
    rw [hAp]; simp
  have hsplitrun : (telnetListener h (k + 2) b A).bind
      (fun b1 => telnetListener h (k + 2) b1 B)
      = some (applyChange h b id (toFloat (levelPart id A))) := by
    rw [hpart, hAshape,
      listener_cut_level h b id p k hlo hhi hp1 hp2
        (by
          rw [← hAshape]
          have := congrArg List.length hsplit
          rw [List.length_append] at this
          omega)]
    exact listener_no_marker h _ B (k + 1) hB2
  refine ⟨hsplitrun, hres, ?_, ?_⟩
  · rw [hsplitrun, hres]
    constructor
    · intro he
      exact applyChange_level_inj h b id _ _ (Option.some.inj he)
    · intro he
      rw [he]
  · intro hlen2
    rw [hpart]
    have hBlen : B.length = 1 ∨ B.length = 2 := by
      have : B.length ≠ 0 := fun e => hB (List.length_eq_zero.1 e)
      omega
    rcases hBlen with h1 | h2
    · obtain ⟨hp, _⟩ := List.append_inj' hpB (by simp [h1])
      rw [← hp]
      exact toFloat_level whole frac hw hf
    · have hpB' : (whole ++ '.' :: (frac ++ [])) ++ ['\r', '\n'] = p ++ B := by
        rw [← hpB]; simp
      obtain ⟨hp, _⟩ := List.append_inj' hpB' (by simp [h2])
      rw [← hp]
      exact toFloat_decimal whole frac [] hw hf (by simp)

/-- C2 (amended) at the frame `~OUTPUT,5,1,100.00` CRLF split before its last zero: the
first chunk carries the level text `100.0`, which reads as 100. -/
theorem listener_split_after_command_witness :
    (changeFrame 5 "100".toList "00".toList
        = "~OUTPUT,5,1,100.0".toList ++ "0\r\n".toList ∧
      levelPart 5 "~OUTPUT,5,1,100.0".toList = "100.0".toList ∧
      toFloat "100.0".toList = 100 ∧ levelOfDecimal "100".toList "00".toList = 100 ∧
      levelPart 5 "~OUTPUT,5,1,10".toList = "10".toList ∧ toFloat "10".toList = 10) ∧
    ((telnetListener exampleHeader 2 new "~OUTPUT,5,1,100.0".toList).bind
        (fun b1 => telnetListener exampleHeader 2 b1 "0\r\n".toList)
        = some (applyChange exampleHeader new 5
            (toFloat (levelPart 5 "~OUTPUT,5,1,100.0".toList))) ∧
      telnetListener exampleHeader 2 new (changeFrame 5 "100".toList "00".toList)
        = some (applyChange exampleHeader new 5 (levelOfDecimal "100".toList "00".toList)) ∧
      ((telnetListener exampleHeader 2 new "~OUTPUT,5,1,100.0".toList).bind
          (fun b1 => telnetListener exampleHeader 2 b1 "0\r\n".toList)
          = telnetListener exampleHeader 2 new (changeFrame 5 "100".toList "00".toList)
        ↔ toFloat (levelPart 5 "~OUTPUT,5,1,100.0".toList)
          = levelOfDecimal "100".toList "00".toList) ∧
      ("0\r\n".toList.length ≤ 2 →
        toFloat (levelPart 5 "~OUTPUT,5,1,100.0".toList)
          = levelOfDecimal "100".toList "00".toList)) :=
  ⟨⟨by decide, by decide, by decide, by decide, by decide, by decide⟩,
    listener_split_after_command exampleHeader new 5 "100".toList "00".toList
      "~OUTPUT,5,1,100.0".toList "0\r\n".toList 0 (by decide) (by decide) (by decide)
      (by decide) (by decide) (by decide) (by decide) (by decide)⟩

/-- C2 (as stated) fails: the frame `~OUTPUT,5,1,100.00` CRLF received as `~OUTPUT,5,1,10`
and then `0.00` CRLF leaves device 5 at level 10 with an event for level 10, while the frame
received in one piece leaves it at level 100. -/
theorem listener_split_counterexample :
    changeFrame 5 "100".toList "00".toList = "~OUTPUT,5,1,10".toList ++ "0.00\r\n".toList ∧
    "~OUTPUT,5,1,10".toList ≠ [] ∧ "0.00\r\n".toList ≠ [] ∧
    (telnetListener exampleHeader 5 new "~OUTPUT,5,1,10".toList).bind
        (fun b1 => telnetListener exampleHeader 5 b1 "0.00\r\n".toList)
      = some { new with
          deviceMap := [(5, ⟨5, 10, 100⟩)]
          published := [("lutron/device/changed".toList, "device=5&level=10".toList)] } ∧
    telnetListener exampleHeader 5 new (changeFrame 5 "100".toList "00".toList)
      = some { new with
          deviceMap := [(5, ⟨5, 100, 100⟩)]
          published := [("lutron/device/changed".toList, "device=5&level=100".toList)] } ∧
    (telnetListener exampleHeader 5 new "~OUTPUT,5,1,10".toList).bind
        (fun b1 => telnetListener exampleHeader 5 b1 "0.00\r\n".toList)
      ≠ telnetListener exampleHeader 5 new (changeFrame 5 "100".toList "00".toList) := by
  decide


/-- C3 (amended): a fragment `~OUTPUT,<a>,<c>,<l>` CRLF with its three tokens present (no
comma in `a` and `c`, no line feed and no `~` in `l`) is not validated: its tokens are read
by `atol` and `atof`.  When the command token does not read as 1 the fragment has no effect,
and the buffer made of the fragment and a change frame is processed as the frame alone; when
it reads as 1 the fragment is applied as a change of device `toInt a` before the frame. -/
theorem listener_fragment_then_frame (h : Header) (b : Bridge) (a c l : Str) (id : Int)
    (whole frac : Str) (k : Nat)
    (ha : ',' ∉ a) (hc : ',' ∉ c) (hl : '\n' ∉ l) (hl2 : '~' ∉ l)
    (hlo : -2147483648 ≤ id) (hhi : id ≤ 2147483647)
    (hw : AllDigits whole) (hf : AllDigits frac) :
    telnetListener h (k + 3) b (frameText a c l ++ changeFrame id whole frac)
        = some (applyChange h
            (if toInt c = 1 then applyChange h b (toInt a) (toFloat (l ++ ['\r'])) else b)
            id (levelOfDecimal whole frac)) ∧
      (toInt c ≠ 1 →
        telnetListener h (k + 3) b (frameText a c l ++ changeFrame id whole frac)
          = telnetListener h (k + 2) b (changeFrame id whole frac)) := by
  have hlen : LUTRON_RETURN.length = 8 := by decide
  have key : telnetListener h (k + 3) b (frameText a c l ++ changeFrame id whole frac)
      = some (applyChange h
          (if toInt c = 1 then applyChange h b (toInt a) (toFloat (l ++ ['\r'])) else b)
          id (levelOfDecimal whole frac)) := by
    unfold telnetListener
    rw [if_neg (by simp [frameText, LUTRON_RETURN_eq])]
    have hshape1 : frameText a c l ++ changeFrame id whole frac
        = [] ++ (LUTRON_RETURN ++ (a ++ ',' :: (c ++ ',' ::
            ((l ++ ['\r']) ++ '\n' :: changeFrame id whole frac)))) := by
      simp [frameText, CRLF]
    have hshape2 : frameText a c l ++ changeFrame id whole frac
        = (LUTRON_RETURN ++ (a ++ ',' :: (c ++ ',' :: (l ++ ['\r', '\n'])))) ++
          (LUTRON_RETURN ++ (fmtInt id ++ ',' :: (['1'] ++ ',' ::
            ((whole ++ '.' :: (frac ++ ['\r'])) ++ '\n' :: [])))) := by
      simp [frameText, changeFrame, CRLF]
    have hl' : '\n' ∉ l ++ ['\r'] := by
      intro m
      rcases List.mem_append.1 m with m | m
      · exact hl m
      · exact absurd (List.mem_singleton.1 m) (by decide)
    have step1 := scan_frame h [] a c (l ++ ['\r']) (changeFrame id whole frac) (k + 2) 0 b
      (by simp) (by simp) ha hc hl'
    rw [← hshape1] at step1
    rw [show ((0 : Int)) = ((0 : Nat) : Int) from rfl, step1]
    have hdrop : (LUTRON_RETURN ++ (a ++ ',' :: (c ++ ',' :: (l ++ ['\r', '\n'])))).drop
        (([] : Str).length + 8 + a.length + 1 + c.length + 1) = l ++ ['\r', '\n'] := by
      have : LUTRON_RETURN ++ (a ++ ',' :: (c ++ ',' :: (l ++ ['\r', '\n'])))
          = (LUTRON_RETURN ++ (a ++ ',' :: (c ++ [',']))) ++ (l ++ ['\r', '\n']) := by simp
      rw [this, List.drop_left' (by simp [hlen]; omega)]
    have step2 := scan_last_frame h
      (LUTRON_RETURN ++ (a ++ ',' :: (c ++ ',' :: (l ++ ['\r', '\n']))))
      (fmtInt id) ['1'] (whole ++ '.' :: (frac ++ ['\r'])) [] k
      (([] : Str).length + 8 + a.length + 1 + c.length + 1)
      (if toInt c = 1 then applyChange h b (toInt a) (toFloat (l ++ ['\r'])) else b)
      (by simp [hlen]; omega)
      (by
        rw [hdrop]
        intro m
        rcases List.mem_append.1 m with m | m
        · exact hl2 m
        · revert m; decide)
      (fmtInt_not_mem id (by decide) (by decide)) (by decide)
      (level_not_mem whole frac hw hf (by decide) (by decide) (by decide))
      (level_not_mem whole frac hw hf (by decide) (by decide) (by decide)) (by simp)
    rw [← hshape2, toFloat_level whole frac hw hf, toInt_fmtInt id hlo hhi,
      show toInt ['1'] = 1 by decide, if_pos rfl] at step2
    exact step2
  refine ⟨key, fun hne => ?_⟩
  rw [key, if_neg hne, changeFrame_result h b id whole frac k hlo hhi hw hf]

/-- C3 (amended) at the fragment `~OUTPUT,abc,x,50.00` CRLF, whose command token reads as 0,
in front of the frame `~OUTPUT,5,1,100.00` CRLF.  Level tokens are read as `atof` reads
them: `0x10` is 16, `1e2` is 100, `inf` is infinite, `abc` is 0, and the fragment
`~OUTPUT,7,1,0x10` CRLF in front of the frame stores device 7 at 16. -/
theorem listener_fragment_then_frame_witness :
    ((',' ∉ "abc".toList ∧ ',' ∉ "x".toList ∧ '\n' ∉ "50.00".toList ∧ '~' ∉ "50.00".toList ∧
      AllDigits "100".toList ∧ AllDigits "00".toList ∧
      toInt "abc".toList = 0 ∧ toInt "12abc".toList = 12 ∧
      toFloat "50.00\r".toList = 50 ∧ toFloat "0x10\r".toList = 16 ∧
      toFloat "1e2\r".toList = 100 ∧ toFloat "inf\r".toList = Level.inf false ∧
      toFloat "abc\r".toList = 0 ∧
      telnetListener exampleHeader 3 new
          ("~OUTPUT,7,1,0x10\r\n".toList ++ changeFrame 5 "100".toList "00".toList)
        = some { new with
            deviceMap := [(5, ⟨5, 100, 100⟩), (7, ⟨7, 16, 100⟩)]
            published := [("lutron/device/changed".toList, "device=7&level=16".toList),
              ("lutron/device/changed".toList, "device=5&level=100".toList)] }) ∧
      toInt "x".toList ≠ 1) ∧
    telnetListener exampleHeader 3 new
        (frameText "abc".toList "x".toList "50.00".toList ++
          changeFrame 5 "100".toList "00".toList)
      = telnetListener exampleHeader 2 new (changeFrame 5 "100".toList "00".toList) :=
  ⟨⟨⟨by decide, by decide, by decide, by decide, by decide, by decide, by decide, by decide,
      by decide, by decide, by decide, by decide, by decide, by decide⟩, by decide⟩,
    (listener_fragment_then_frame exampleHeader new "abc".toList "x".toList "50.00".toList 5
      "100".toList "00".toList 0 (by decide) (by decide) (by decide) (by decide)
      (by decide) (by decide) (by decide) (by decide)).2 (by decide)⟩

/-- C3 (as stated) fails: the fragment `~OUTPUT,abc,1,50.00` CRLF has a non-numeric device
id, yet in front of the change frame for device 5 it makes the listener store device 0 at
level 50 and publish an event for it; the frame alone leaves only device 5. -/
theorem listener_malformed_counterexample :
    telnetListener exampleHeader 5 new
        ("~OUTPUT,abc,1,50.00\r\n".toList ++ changeFrame 5 "100".toList "00".toList)
      = some { new with
          deviceMap := [(0, ⟨0, 50, 100⟩), (5, ⟨5, 100, 100⟩)]
          published := [("lutron/device/changed".toList, "device=0&level=50".toList),
            ("lutron/device/changed".toList, "device=5&level=100".toList)] } ∧
    telnetListener exampleHeader 5 new (changeFrame 5 "100".toList "00".toList)
      = some { new with
          deviceMap := [(5, ⟨5, 100, 100⟩)]
          published := [("lutron/device/changed".toList, "device=5&level=100".toList)] } ∧
    telnetListener exampleHeader 5 new
        ("~OUTPUT,abc,1,50.00\r\n".toList ++ changeFrame 5 "100".toList "00".toList)
      ≠ telnetListener exampleHeader 5 new (changeFrame 5 "100".toList "00".toList) := by
  decide

/-- C4: a received buffer that is one frame `~OUTPUT,<id>,<c>,<level>` CRLF with a command
code `c` other than 1 leaves the bridge as it was: the device map is unchanged, nothing is
published and the change callback is not called (the bridge after the drain is the bridge
before it). -/
theorem listener_other_command (h : Header) (b : Bridge) (id c : Int) (whole frac : Str)
    (k : Nat) (hc : c ≠ 1) (hlo : -2147483648 ≤ c) (hhi : c ≤ 2147483647)
    (hw : AllDigits whole) (hf : AllDigits frac) :
    telnetListener h (k + 2) b
        (frameText (fmtInt id) (fmtInt c) (whole ++ ['.'] ++ frac)) = some b := by
  have := scan_single_frame h b id c whole frac k hw hf
  rw [toInt_fmtInt c hlo hhi, if_neg hc] at this
  exact this

/-- C4 at the frame `~OUTPUT,5,2,100.00` CRLF received by a fresh bridge. -/
theorem listener_other_command_witness :
    ((2 : Int) ≠ 1 ∧ AllDigits "100".toList ∧ AllDigits "00".toList ∧
      frameText (fmtInt 5) (fmtInt 2) ("100".toList ++ ['.'] ++ "00".toList)
        = "~OUTPUT,5,2,100.00\r\n".toList) ∧
    telnetListener exampleHeader 2 new
        (frameText (fmtInt 5) (fmtInt 2) ("100".toList ++ ['.'] ++ "00".toList)) = some new :=
  ⟨⟨by decide, by decide, by decide, by decide⟩,
    listener_other_command exampleHeader new 5 2 "100".toList "00".toList 0
      (by decide) (by decide) (by decide) (by decide) (by decide)⟩


theorem truncated_step (h : Header) (b : Bridge) (n : Nat) :
    telnetListenerScan h truncatedFrame (n + 1) 0 b
      = telnetListenerScan h truncatedFrame n 0 (applyChange h b 5 0) := by
  rw [telnetListenerScan]
  have u0 : toUnsigned 0 = 0 := by decide
  have e0 : indexOfStr truncatedFrame LUTRON_RETURN 0 = 0 := by decide
  have u1 : toUnsigned ((0 : Int) + ((LUTRON_RETURN.length : Nat) : Int)) = 8 := by decide
  have e1 : indexOfChar truncatedFrame ',' 8 = 9 := by decide
  have u2 : toUnsigned (9 : Int) = 9 := by decide
  have s1 : toInt (substring truncatedFrame 8 9) = 5 := by decide
  have u3 : toUnsigned ((9 : Int) + 1) = 10 := by decide
  have e2 : indexOfChar truncatedFrame ',' 10 = -1 := by decide
  have u4 : toUnsigned (-1 : Int) = 4294967295 := by decide
  have s2 : toInt (substring truncatedFrame 10 4294967295) = 1 := by decide
  have c1 : ((-1 : Int) + 1) = 0 := by decide
  have e3 : indexOfChar truncatedFrame '\n' 0 = -1 := by decide
  have s3 : toFloat (substring truncatedFrame 0 4294967295) = 0 := by decide
  have n1 : ((0 : Int) = -1) = False := by decide
  simp only [u0, e0, u1, e1, u2, s1, u3, e2, u4, s2, c1, e3, s3, n1, if_false, if_true,
    ne_eq, not_false_eq_true]

theorem truncated_scan_none (h : Header) (n : Nat) :
    ∀ b : Bridge, telnetListenerScan h truncatedFrame n 0 b = none := by
  induction n with
  | zero => intro b; rfl
  | succ n ih => intro b; rw [truncated_step, ih]

theorem dangling_step (b : Bridge) (n : Nat) (start : Int) (hst : start = 0 ∨ start = 1) :
    setAllDimmersLoop danglingToken (n + 1) start b
      = setAllDimmersLoop danglingToken n 1 (_setDimmer b 1 5).2 := by
  rw [setAllDimmersLoop]
  have u0 : toUnsigned 0 = 0 := by decide
  have u1 : toUnsigned 1 = 1 := by decide
  have e0 : indexOfStr danglingToken "D=".toList 0 = 1 := by decide
  have e1 : indexOfStr danglingToken "D=".toList 1 = 1 := by decide
  have n1 : ((1 : Int) = -1) = False := by decide
  have u2 : toUnsigned ((1 : Int) + 2) = 3 := by decide
  have e2 : indexOfChar danglingToken '&' 3 = 4 := by decide
  have u3 : toUnsigned (4 : Int) = 4 := by decide
  have s1 : toInt (substring danglingToken 3 4) = 1 := by decide
  have e3 : indexOfStr danglingToken "L=".toList 3 = 5 := by decide
  have n2 : ((5 : Int) = -1) = False := by decide
  have u4 : toUnsigned ((5 : Int) + 2) = 7 := by decide
  have e4 : indexOfChar danglingToken '\n' 7 = -1 := by decide
  have u5 : toUnsigned (-1 : Int) = 4294967295 := by decide
  have s2 : toFloat (substring danglingToken 7 4294967295) = 5 := by decide
  have c1 : ((-1 : Int) + 2) = 1 := by decide
  rcases hst with rfl | rfl <;>
  simp only [u0, u1, e0, e1, n1, u2, e2, u3, s1, e3, n2, u4, e4, u5, s2, c1, if_false, if_true,
    ne_eq, not_false_eq_true]

theorem dangling_loop_none (n : Nat) :
    ∀ (b : Bridge) (start : Int), start = 0 ∨ start = 1 →
      setAllDimmersLoop danglingToken n start b = none := by
  induction n with
  | zero => intro b start _; rfl
  | succ n ih => intro b start hst; rw [dangling_step b n start hst, ih _ 1 (Or.inr rfl)]

/-- C5 (the code at the failing input): on the received text `~OUTPUT,5,1` every pass of the
scanning loop publishes an event for device 5 at level 0 and comes back to position 0, so
the loop has not left after any number of passes. -/
theorem listener_truncated_frame_never_leaves (h : Header) (b : Bridge) (n : Nat) :
    telnetListenerScan h truncatedFrame (n + 1) 0 b
        = telnetListenerScan h truncatedFrame n 0 (applyChange h b 5 0) ∧
      telnetListener h n b truncatedFrame = none := by
  refine ⟨truncated_step h b n, ?_⟩
  unfold telnetListener
  rw [if_neg (by decide)]
  exact truncated_scan_none h n b

/-- C6 (the code at the failing input): on a connected bridge `setAllDimmers` applied to the
two tokens `D=3&L=20.00` and `D=9&L=75.00`, each followed by CRLF, writes the command for
device 3 only; the token of device 9 is passed over. -/
theorem setAllDimmers_skips_second_token :
    bulkToken 3 "20.00".toList ++ bulkToken 9 "75.00".toList
        = "D=3&L=20.00\r\nD=9&L=75.00\r\n".toList ∧
      setAllDimmers 5 connectedBridge "D=3&L=20.00\r\nD=9&L=75.00\r\n".toList
        = some (1, { connectedBridge with clientOut := "#OUTPUT,3,1,20.00\r\n".toList }) ∧
      ((_setDimmer (_setDimmer connectedBridge 3 20).2 9 75).2).clientOut
        = "#OUTPUT,3,1,20.00\r\n#OUTPUT,9,1,75.00\r\n".toList := by
  decide

/-- C7 (the code at the failing input): on the text ` D=1&L=5` (a space, then a token with
no line terminator) every pass of the loop of `setAllDimmers` issues the command for device 1
and comes back to position 1, so the loop has not left after any number of passes. -/
theorem setAllDimmers_dangling_token_never_leaves (b : Bridge) (n : Nat) :
    setAllDimmersLoop danglingToken (n + 1) 1 b
        = setAllDimmersLoop danglingToken n 1 (_setDimmer b 1 5).2 ∧
      setAllDimmers n b danglingToken = none := by
  refine ⟨dangling_step b n 1 (Or.inr rfl), ?_⟩
  unfold setAllDimmers
  rw [dangling_loop_none n b 0 (Or.inl rfl)]
  rfl

/-- C8 (amended): on a connected bridge `_setDimmer(id, level)` appends to the transport
exactly one line `#OUTPUT,<id>,1,<t>` CRLF and returns 1; there is no range check.  For a
finite level `t` is the level written with its sign and exactly two decimals, rounded to the
nearest hundredth, ties to even; for an infinite level or a NaN `t` is `inf` or `nan` after
the sign, without decimals. -/
theorem setDimmer_writes_command (b : Bridge) (id : Int) (neg : Bool) (mag : ℚ)
    (hc : b.clientConnected = true) :
    (∃ t, IsFixedText 2 neg |mag| t ∧
      _setDimmer b id (Level.finite neg mag)
        = (1, { b with clientOut := b.clientOut ++
            ("#OUTPUT,".toList ++ fmtInt id ++ ",1,".toList ++ t) ++ ['\r', '\n'] })) ∧
    _setDimmer b id (Level.inf neg)
      = (1, { b with clientOut := b.clientOut ++
          ("#OUTPUT,".toList ++ fmtInt id ++ ",1,".toList ++
            ((if neg then ['-'] else []) ++ ['i', 'n', 'f'])) ++ ['\r', '\n'] }) ∧
    _setDimmer b id (Level.nan neg)
      = (1, { b with clientOut := b.clientOut ++
          ("#OUTPUT,".toList ++ fmtInt id ++ ",1,".toList ++
            ((if neg then ['-'] else []) ++ ['n', 'a', 'n'])) ++ ['\r', '\n'] }) := by
  refine ⟨⟨fmtFixed 2 (Level.finite neg mag), fmtFixed_spec 2 neg mag, ?_⟩, ?_, ?_⟩
  · simp [_setDimmer, sendCommand, hc, LUTRON_WRITE, CRLF]
  · simp [_setDimmer, sendCommand, hc, LUTRON_WRITE, CRLF, fmtFixed]
  · simp [_setDimmer, sendCommand, hc, LUTRON_WRITE, CRLF, fmtFixed]

/-- C8 (amended) on a connected fresh bridge, at device 5 and the levels 250, -0.125 and
0.375 (two ties) and the `float` nearest to 0.015. -/
theorem setDimmer_writes_command_witness :
    (connectedBridge.clientConnected = true ∧
      (_setDimmer connectedBridge 5 250).2.clientOut = "#OUTPUT,5,1,250.00\r\n".toList ∧
      (_setDimmer connectedBridge 5 (Level.finite true (mkRat 1 8))).2.clientOut
        = "#OUTPUT,5,1,-0.12\r\n".toList ∧
      (_setDimmer connectedBridge 5 (Level.finite false (mkRat 3 8))).2.clientOut
        = "#OUTPUT,5,1,0.38\r\n".toList ∧
      (_setDimmer connectedBridge 5 (toFloat "0.015".toList)).2.clientOut
        = "#OUTPUT,5,1,0.01\r\n".toList ∧
      (_setDimmer connectedBridge 5 (Level.finite true 0)).2.clientOut
        = "#OUTPUT,5,1,-0.00\r\n".toList) ∧
    (∃ t, IsFixedText 2 true |mkRat 1 8| t ∧
      _setDimmer connectedBridge 5 (Level.finite true (mkRat 1 8))
        = (1, { connectedBridge with clientOut := connectedBridge.clientOut ++
            ("#OUTPUT,".toList ++ fmtInt 5 ++ ",1,".toList ++ t) ++ ['\r', '\n'] })) ∧
    _setDimmer connectedBridge 5 (Level.inf true)
      = (1, { connectedBridge with clientOut := connectedBridge.clientOut ++
          ("#OUTPUT,".toList ++ fmtInt 5 ++ ",1,".toList ++
            ((if true then ['-'] else []) ++ ['i', 'n', 'f'])) ++ ['\r', '\n'] }) ∧
    _setDimmer connectedBridge 5 (Level.nan true)
      = (1, { connectedBridge with clientOut := connectedBridge.clientOut ++
          ("#OUTPUT,".toList ++ fmtInt 5 ++ ",1,".toList ++
            ((if true then ['-'] else []) ++ ['n', 'a', 'n'])) ++ ['\r', '\n'] }) :=
  ⟨⟨rfl, by decide, by decide, by decide, by decide, by decide⟩,
    setDimmer_writes_command connectedBridge 5 true (mkRat 1 8) rfl⟩

set_option maxRecDepth 4000 in
/-- C8 (as stated) fails: `_setDimmer(5, inf)` on a connected bridge writes the line
`#OUTPUT,5,1,inf`, which has no decimals; the infinite level is what `setDimmer` passes on
for the string `5,1e39`. -/
theorem setDimmer_infinite_counterexample :
    _setDimmer connectedBridge 5 (Level.inf false)
      = (1, { connectedBridge with clientOut := "#OUTPUT,5,1,inf\r\n".toList }) ∧
    '.' ∉ "#OUTPUT,5,1,inf\r\n".toList ∧
    toFloat "1e39".toList = Level.inf false ∧
    setDimmer connectedBridge "5,1e39".toList
      = (1, { connectedBridge with clientOut := "#OUTPUT,5,1,inf\r\n".toList }) := by
  decide

/-- C9: when the client is not connected, `sendCommand` and `_setDimmer` return -1 and leave
the bridge as it was: nothing is written and the device map is unchanged. -/
theorem commands_fail_when_disconnected (b : Bridge) (sCommand : Str) (id : Int)
    (level : Level) (hc : b.clientConnected = false) :
    sendCommand b sCommand = (-1, b) ∧ _setDimmer b id level = (-1, b) := by
  simp [_setDimmer, sendCommand, hc]

/-- C9 on a fresh bridge, whose client is not connected. -/
theorem commands_fail_when_disconnected_witness :
    new.clientConnected = false ∧
    (sendCommand new "#OUTPUT,5,1,100.00".toList = (-1, new) ∧
      _setDimmer new 5 100 = (-1, new)) :=
  ⟨rfl, commands_fail_when_disconnected new "#OUTPUT,5,1,100.00".toList 5 100 rfl⟩

theorem getAllDimmersLoop_eq (m : DEVICE_MAP) (states : Str) :
    getAllDimmersLoop m states = states ++ (m.map dimmerLine).flatten := by
  induction m generalizing states with
  | nil => simp [getAllDimmersLoop]
  | cons e rest ih => simp [getAllDimmersLoop, ih]

theorem mapAssign_keys (k : Int) (v : LUTRON_DEVICE) (m : DEVICE_MAP) :
    ∀ x ∈ (mapAssign k v m).map Prod.fst, x = k ∨ x ∈ m.map Prod.fst := by
  induction m with
  | nil => intro x hx; simpa [mapAssign] using hx
  | cons e rest ih =>
    intro x hx
    unfold mapAssign at hx
    by_cases h1 : k < e.1
    · rw [if_pos h1] at hx
      simpa using hx
    · rw [if_neg h1] at hx
      by_cases h2 : k = e.1
      · rw [if_pos h2] at hx
        simp only [List.map_cons, List.mem_cons] at hx ⊢
        rcases hx with hx | hx
        · exact Or.inl hx
        · exact Or.inr (Or.inr hx)
      · rw [if_neg h2] at hx
        simp only [List.map_cons, List.mem_cons] at hx ⊢
        rcases hx with hx | hx
        · exact Or.inr (Or.inl hx)
        · rcases ih x hx with hx | hx
          · exact Or.inl hx
          · exact Or.inr (Or.inr hx)

theorem mapAssign_sorted (k : Int) (v : LUTRON_DEVICE) (m : DEVICE_MAP)
    (hm : (m.map Prod.fst).Pairwise (· < ·)) :
    ((mapAssign k v m).map Prod.fst).Pairwise (· < ·) := by
  induction m with
  | nil => simp [mapAssign]
  | cons e rest ih =>
    simp only [List.map_cons, List.pairwise_cons] at hm
    obtain ⟨hhead, htail⟩ := hm
    unfold mapAssign
    by_cases h1 : k < e.1
    · rw [if_pos h1]
      simp only [List.map_cons, List.pairwise_cons, List.mem_cons]
      refine ⟨?_, hhead, htail⟩
      rintro x (rfl | hx)
      · exact h1
      · exact lt_trans h1 (hhead x hx)
    · rw [if_neg h1]
      by_cases h2 : k = e.1
      · rw [if_pos h2]
        simp only [List.map_cons, List.pairwise_cons]
        exact ⟨fun x hx => h2 ▸ hhead x hx, htail⟩
      · rw [if_neg h2]
        simp only [List.map_cons, List.pairwise_cons]
        refine ⟨fun x hx => ?_, ih htail⟩
        rcases mapAssign_keys k v rest x hx with rfl | hx
        · omega
        · exact hhead x hx

theorem upserts_sorted (l : List (Int × LUTRON_DEVICE)) :
    ∀ b : Bridge, (b.deviceMap.map Prod.fst).Pairwise (· < ·) →
      ((upserts l b).deviceMap.map Prod.fst).Pairwise (· < ·) := by
  induction l with
  | nil => intro b hb; exact hb
  | cons e rest ih =>
    intro b hb
    exact ih (addDevice b e.1 e.2) (mapAssign_sorted e.1 e.2 b.deviceMap hb)

/-- C10: `getAllDimmers` returns the lines `D=<id>&L=<currentLevel>` CRLF of the map entries
in iteration order, publishes that string as the `lutron/alldevices/state` event and leaves
the map unchanged.  The level is printed without decimals: no printed level has a point, and
a finite level is printed as its magnitude rounded to the nearest integer, ties to even,
after its sign.  A map filled by upserts is iterated in ascending id order, and the map
holding 5 at 100 and 7 at 30 gives `D=5&L=100` CRLF `D=7&L=30` CRLF. -/
theorem getAllDimmers_serializes :
    (∀ b : Bridge,
      (getAllDimmers b).1 = (b.deviceMap.map (fun e =>
          "D=".toList ++ fmtInt e.1 ++ "&L=".toList ++ fmtFixed 0 e.2.currentLevel ++
            ['\r', '\n'])).flatten ∧
      (getAllDimmers b).2 = { b with published :=
          b.published ++ [("lutron/alldevices/state".toList, (getAllDimmers b).1)] } ∧
      (getAllDimmers b).2.deviceMap = b.deviceMap) ∧
    (∀ x : Level, '.' ∉ fmtFixed 0 x) ∧
    (∀ (neg : Bool) (mag : ℚ), IsFixedText 0 neg |mag| (fmtFixed 0 (Level.finite neg mag))) ∧
    (∀ l : List (Int × LUTRON_DEVICE),
      ((upserts l new).deviceMap.map Prod.fst).Pairwise (· < ·)) ∧
    exampleCache.deviceMap = [(5, ⟨5, 100, 100⟩), (7, ⟨7, 30, 100⟩)] ∧
    (getAllDimmers exampleCache).1 = "D=5&L=100\r\nD=7&L=30\r\n".toList ∧
    (getAllDimmers fractionCache).1
      = "D=1&L=0\r\nD=2&L=0\r\nD=3&L=2\r\nD=4&L=2\r\nD=6&L=-1\r\n".toList := by
  refine ⟨fun b => ⟨?_, rfl, rfl⟩, fmtFixed_zero_no_point, fmtFixed_spec 0,
    fun l => upserts_sorted l new List.Pairwise.nil, by decide, by decide, by decide⟩
  simp only [getAllDimmers, getAllDimmersLoop_eq, List.nil_append]
  rfl

theorem sendCommand_connected (b : Bridge) (s : Str) (hc : b.clientConnected = true) :
    sendCommand b s = (1, { b with clientOut := b.clientOut ++ s ++ CRLF }) := by
  simp [sendCommand, hc]

theorem initDimmerLevelsLoop_eq (count : Nat) : ∀ (i : Int) (b : Bridge),
    b.clientConnected = true →
    initDimmerLevelsLoop count i b = { b with clientOut := b.clientOut ++
      ((List.range count).map (fun j : Nat => queryLine (i + (j : Int)))).flatten } := by
  induction count with
  | zero => intro i b _; simp [initDimmerLevelsLoop]
  | succ count ih =>
    intro i b hc
    rw [initDimmerLevelsLoop, _getDimmer, sendCommand_connected b _ hc]
    simp only []
    rw [ih (i + 1) { b with clientOut := b.clientOut ++ LUTRON_READ i ++ CRLF } hc,
      List.range_succ_eq_map]
    simp only [List.map_cons, List.map_map, List.flatten_cons, Nat.cast_zero, add_zero]
    have hfun : (fun j : Nat => queryLine (i + 1 + (j : Int)))
        = ((fun j : Nat => queryLine (i + (j : Int))) ∘ Nat.succ) := by
      funext j
      simp only [Function.comp, Nat.succ_eq_add_one, Nat.cast_add, Nat.cast_one]
      congr 1
      ring
    rw [hfun]
    simp [queryLine, LUTRON_READ, CRLF, List.append_assoc]

/-- C11: on a connected bridge `initDimmerLevels(maxId)` returns 1 and appends to the
transport exactly the `maxId` query lines `?OUTPUT,<i>,1` CRLF for `i = 0, ..., maxId - 1` in
ascending order; nothing else of the bridge changes, the device map included. -/
theorem initDimmerLevels_queries (b : Bridge) (maxId : Nat) (hc : b.clientConnected = true) :
    initDimmerLevels b (maxId : Int) = (1, { b with clientOut := b.clientOut ++
        ((List.range maxId).map (fun i : Nat =>
          "?OUTPUT,".toList ++ fmtInt (i : Int) ++ ",1".toList ++ ['\r', '\n'])).flatten }) ∧
      (initDimmerLevels b (maxId : Int)).2.deviceMap = b.deviceMap := by
  have h := initDimmerLevelsLoop_eq maxId 0 b hc
  simp only [zero_add] at h
  constructor
  · simp only [initDimmerLevels, Int.toNat_natCast, h]
    rfl
  · simp only [initDimmerLevels, Int.toNat_natCast, h]

/-- C11 at `maxId = 3` on a connected fresh bridge. -/
theorem initDimmerLevels_queries_witness :
    connectedBridge.clientConnected = true ∧
    (initDimmerLevels connectedBridge 3).2.clientOut
      = "?OUTPUT,0,1\r\n?OUTPUT,1,1\r\n?OUTPUT,2,1\r\n".toList ∧
    (initDimmerLevels connectedBridge ((3 : Nat) : Int) = (1, { connectedBridge with
        clientOut := connectedBridge.clientOut ++
          ((List.range 3).map (fun i : Nat =>
            "?OUTPUT,".toList ++ fmtInt (i : Int) ++ ",1".toList ++ ['\r', '\n'])).flatten }) ∧
      (initDimmerLevels connectedBridge ((3 : Nat) : Int)).2.deviceMap
        = connectedBridge.deviceMap) :=
  ⟨rfl, by decide, initDimmerLevels_queries connectedBridge 3 rfl⟩


theorem mapFind_mapAssign_eq (k id : Int) (v : LUTRON_DEVICE) (m : DEVICE_MAP) :
    mapFind k (mapAssign id v m) = if k = id then some v else mapFind k m := by
  by_cases hk : k = id
  · rw [if_pos hk, hk, mapFind_mapAssign]
  · rw [if_neg hk]
    have hk' : ¬ id = k := fun e => hk e.symm
    induction m with
    | nil => simp [mapAssign, mapFind, hk']
    | cons e rest ih =>
      unfold mapAssign
      by_cases h1 : id < e.1
      · simp [h1, mapFind, hk']
      · by_cases h2 : id = e.1
        · have h3 : ¬ e.1 = k := fun x => hk (h2.trans x).symm
          simp [h1, h2, mapFind, h3]
        · rw [if_neg h1, if_neg h2]
          by_cases h3 : e.1 = k
          · simp [mapFind, h3]
          · simp [mapFind, h3, ih]

/-- C12 (amended): after the listener has processed a change frame for `id`, the entry of
`id` is the device `(id, level, DEFAULT_ON_LEVEL)`, whatever the map held for `id` before:
the on level of an earlier entry is replaced by the default. -/
theorem listener_resets_onLevel (h : Header) (b : Bridge) (id : Int) (whole frac : Str)
    (k : Nat) (hlo : -2147483648 ≤ id) (hhi : id ≤ 2147483647)
    (hw : AllDigits whole) (hf : AllDigits frac) :
    ∃ b1, telnetListener h (k + 2) b (changeFrame id whole frac) = some b1 ∧
      getDevice h b1 id = (⟨id, levelOfDecimal whole frac, h.DEFAULT_ON_LEVEL⟩, b1) := by
  refine ⟨_, changeFrame_result h b id whole frac k hlo hhi hw hf, ?_⟩
  simp [getDevice, applyChange, mapFind_mapAssign]

/-- C12 (amended) at the frame `~OUTPUT,5,1,100.00` CRLF on a cache that holds device 5
with the on level 50; the frame `~OUTPUT,5,1,0.10` CRLF leaves device 5 at the `float`
nearest to 0.1 with the on level 100. -/
theorem listener_resets_onLevel_witness :
    (AllDigits "100".toList ∧ AllDigits "00".toList ∧
      levelOfDecimal "100".toList "00".toList = 100 ∧
      exampleHeader.DEFAULT_ON_LEVEL = 100 ∧
      (getDevice exampleHeader cacheWithOnLevel 5).1 = ⟨5, 20, 50⟩ ∧
      (telnetListener exampleHeader 2 cacheWithOnLevel "~OUTPUT,5,1,0.10\r\n".toList).map
          (fun b1 => (getDevice exampleHeader b1 5).1)
        = some ⟨5, Level.finite false (mkRat 13421773 134217728), 100⟩) ∧
    ∃ b1, telnetListener exampleHeader 2 cacheWithOnLevel
        (changeFrame 5 "100".toList "00".toList) = some b1 ∧
      getDevice exampleHeader b1 5
        = (⟨5, levelOfDecimal "100".toList "00".toList, exampleHeader.DEFAULT_ON_LEVEL⟩, b1) :=
  ⟨⟨by decide, by decide, by decide, by decide, by decide, by decide⟩,
    listener_resets_onLevel exampleHeader cacheWithOnLevel 5 "100".toList "00".toList 0
      (by decide) (by decide) (by decide) (by decide)⟩

/-- C12 (as stated) fails: device 5 is cached with the on level 50; after the change frame
`~OUTPUT,5,1,100.00` CRLF its entry has the on level 100, the default of the header. -/
theorem listener_onLevel_counterexample :
    (getDevice exampleHeader cacheWithOnLevel 5).1.onLevel = 50 ∧
    telnetListener exampleHeader 5 cacheWithOnLevel (changeFrame 5 "100".toList "00".toList)
      = some { cacheWithOnLevel with
          deviceMap := [(5, ⟨5, 100, 100⟩)]
          published := [("lutron/device/changed".toList, "device=5&level=100".toList)] } ∧
    (getDevice exampleHeader { cacheWithOnLevel with
          deviceMap := [(5, ⟨5, 100, 100⟩)]
          published := [("lutron/device/changed".toList, "device=5&level=100".toList)] }
        5).1.onLevel = 100 := by
  decide

/-- C13: after `addDevice(id, d)` or `updateDevice(id, d)` the entry of `id` is `d`
(`getDevice(id)` returns `d` without changing the map, `deviceExists(id)` holds), the entry
of every other id is as before, and a later upsert for `id` replaces the earlier one. -/
theorem upsert_sets_entry (h : Header) (b : Bridge) (id : Int) (d d2 : LUTRON_DEVICE) :
    updateDevice b id d = addDevice b id d ∧
    getDevice h (addDevice b id d) id = (d, addDevice b id d) ∧
    deviceExists (addDevice b id d) id = true ∧
    (∀ k : Int, mapFind k (addDevice b id d).deviceMap
      = if k = id then some d else mapFind k b.deviceMap) ∧
    (∀ k : Int, deviceExists (addDevice b id d) k
      = if k = id then true else deviceExists b k) ∧
    getDevice h (addDevice (addDevice b id d) id d2) id
      = (d2, addDevice (addDevice b id d) id d2) ∧
    getDevice h (updateDevice (addDevice b id d) id d2) id
      = (d2, updateDevice (addDevice b id d) id d2) := by
  refine ⟨rfl, ?_, ?_, ?_, ?_, ?_, ?_⟩
  · simp [getDevice, addDevice, mapFind_mapAssign]
  · simp [deviceExists, addDevice, mapFind_mapAssign]
  · intro k
    simp only [addDevice]
    exact mapFind_mapAssign_eq k id d b.deviceMap
  · intro k
    simp only [deviceExists, addDevice, mapFind_mapAssign_eq]
    split <;> simp
  · simp [getDevice, addDevice, mapFind_mapAssign]
  · simp [getDevice, addDevice, updateDevice, mapFind_mapAssign]


/-- C15: when the client reports connected after the open attempt, `connect` returns true,
creates the listener thread and writes the login lines `lutron` CRLF and `integration` CRLF,
in that order, before anything else (the 90 level queries follow when `m_bMonitor` is set);
when the client does not report connected, `connect` returns false, writes nothing, leaves
the client closed and creates no listener thread. -/
theorem connect_login (b : Bridge) :
    (connect b true).1 = true ∧
    (connect b true).2.clientOut
      = b.clientOut ++ "lutron\r\n".toList ++ "integration\r\n".toList ++
        (if b.m_bMonitor then
          ((List.range 90).map (fun i : Nat =>
            "?OUTPUT,".toList ++ fmtInt (i : Int) ++ ",1".toList ++ ['\r', '\n'])).flatten
         else []) ∧
    (connect b true).2.telnetListenerThread = true ∧
    (connect b true).2.clientConnected = true ∧
    (connect b true).2.deviceMap = b.deviceMap ∧
    connect b false = (false, { b with clientConnected := false }) ∧
    (connect b false).2.clientOut = b.clientOut ∧
    (connect b false).2.telnetListenerThread = b.telnetListenerThread := by
  have hq := initDimmerLevelsLoop_eq 90 0
    { b with
      clientConnected := true
      clientOut := b.clientOut ++ "lutron".toList ++ CRLF ++ "integration".toList ++ CRLF
      telnetListenerThread := true } rfl
  simp only [zero_add, queryLine] at hq
  have hconn : connect b true = (true,
      if b.m_bMonitor then
        (initDimmerLevels
          { b with
            clientConnected := true
            clientOut := b.clientOut ++ "lutron".toList ++ CRLF ++ "integration".toList ++ CRLF
            telnetListenerThread := true } 90).2
      else
        { b with
          clientConnected := true
          clientOut := b.clientOut ++ "lutron".toList ++ CRLF ++ "integration".toList ++ CRLF
          telnetListenerThread := true }) := rfl
  have hfalse : connect b false = (false, { b with clientConnected := false }) := rfl
  have hi : ∀ x : Bridge, (initDimmerLevels x 90).2 = initDimmerLevelsLoop 90 0 x := by
    intro x
    unfold initDimmerLevels
    rw [show (90 : Int).toNat = 90 from rfl]
  rw [hconn, hfalse, hi, hq]
  generalize ((List.range 90).map (fun i : Nat =>
    "?OUTPUT,".toList ++ fmtInt (i : Int) ++ ",1".toList ++ ['\r', '\n'])).flatten = queries
  have hl : b.clientOut ++ "lutron".toList ++ CRLF ++ "integration".toList ++ CRLF
      = b.clientOut ++ "lutron\r\n".toList ++ "integration\r\n".toList := by
    simp [CRLF]
  rw [hl]
  cases b.m_bMonitor <;> simp

/-- C16: a second `disconnect` changes nothing: after one call the client is closed and no
listener thread is held, and the device map is as before. -/
theorem disconnect_idempotent (b : Bridge) :
    disconnect (disconnect b) = disconnect b ∧
    (disconnect b).clientConnected = false ∧
    (disconnect b).telnetListenerThread = false ∧
    (disconnect b).deviceMap = b.deviceMap := by
  cases ht : b.telnetListenerThread <;> simp [disconnect, ht]

/-- C18 (the code at the failing input): `getDevice(7)` on a fresh bridge, where device 7 has
no entry, stores the default-constructed device under 7: `deviceExists(7)` holds afterwards
and `getAllDimmers` returns a line for device 7 instead of the empty string. -/
theorem getDevice_inserts_entry (h : Header) :
    deviceExists new 7 = false ∧
    (getDevice h new 7).2.deviceMap = [(7, h.defaultDevice)] ∧
    deviceExists (getDevice h new 7).2 7 = true ∧
    (getAllDimmers new).1 = [] ∧
    (getAllDimmers (getDevice h new 7).2).1
      = "D=7&L=".toList ++ fmtFixed 0 h.defaultDevice.currentLevel ++ ['\r', '\n'] := by
  refine ⟨rfl, rfl, rfl, rfl, ?_⟩
  simp [getAllDimmers, getDevice, mapFind, new, mapAssign, getAllDimmersLoop, dimmerLine, CRLF,
    show fmtInt 7 = ['7'] by decide]

theorem setDimmer_parse (b : Bridge) (id : Int) (lvl : Str)
    (hlo : -2147483648 ≤ id) (hhi : id ≤ 2147483647) :
    setDimmer b (fmtInt id ++ ',' :: lvl) = _setDimmer b id (toFloat lvl) := by
  have hcomma : ',' ∉ fmtInt id := fmtInt_not_mem id (by decide) (by decide)
  have e1 : indexOfChar (fmtInt id ++ ',' :: lvl) ',' 0 = (((fmtInt id).length : Nat) : Int) := by
    have := indexOfChar_of_split (fmtInt id ++ ',' :: lvl) [] (fmtInt id) lvl ',' 0
      (by simp) (by simp) hcomma
    simpa using this
  have s1 : substring (fmtInt id ++ ',' :: lvl) 0 (fmtInt id).length = fmtInt id :=
    substring_of_split _ [] (fmtInt id) (',' :: lvl) _ _ (by simp) (by simp) (by simp)
  have u2 : toUnsigned ((((fmtInt id).length : Nat) : Int) + 1) = (fmtInt id).length + 1 :=
    toUnsigned_of_eq (by push_cast; rfl)
  have s2 : substringFrom (fmtInt id ++ ',' :: lvl) ((fmtInt id).length + 1) = lvl := by
    unfold substringFrom
    exact substring_to_end _ (fmtInt id ++ [',']) lvl _ _ (by simp) (by simp) (le_refl _)
  have n1 : ¬ ((((fmtInt id).length : Nat) : Int) = -1) := by omega
  unfold setDimmer
  simp only [e1, if_neg n1, toUnsigned_natCast, s1, u2, s2, toInt_fmtInt id hlo hhi]

/-- C20 (amended): `setDimmer` on a string without a comma returns -1 and leaves the bridge
as it was; on `<id>,<level>` with a decimal id and a decimal level (`whole` or `whole.frac`)
it is `_setDimmer(id, x)` with `x` the `float` read from the level text, which on a connected
bridge writes one line `#OUTPUT,<id>,1,<t>` CRLF and returns 1: when `x` is finite `t` is its
exact value rounded to two decimals (to nearest, ties to even), and when the text is beyond
the range of `float`, `x` is `+inf` and `t` is `inf`. -/
theorem setDimmer_string (b : Bridge) (s : Str) (id : Int) (whole frac : Str)
    (hs : ',' ∉ s) (hlo : -2147483648 ≤ id) (hhi : id ≤ 2147483647)
    (hw : AllDigits whole) (hf : AllDigits frac) :
    setDimmer b s = (-1, b) ∧
    setDimmer b (fmtInt id ++ [','] ++ whole ++ ['.'] ++ frac)
      = _setDimmer b id (levelOfDecimal whole frac) ∧
    setDimmer b (fmtInt id ++ [','] ++ whole) = _setDimmer b id (levelOfDecimal whole []) ∧
    (b.clientConnected = true →
      ∃ t : Str,
        setDimmer b (fmtInt id ++ [','] ++ whole ++ ['.'] ++ frac)
          = (1, { b with clientOut := b.clientOut ++
              ("#OUTPUT,".toList ++ fmtInt id ++ ",1,".toList ++ t) ++ ['\r', '\n'] }) ∧
        ((∃ mag : ℚ, levelOfDecimal whole frac = Level.finite false mag ∧
            IsFixedText 2 false |mag| t) ∨
          (levelOfDecimal whole frac = Level.inf false ∧ t = ['i', 'n', 'f']))) := by
  have p1 : setDimmer b (fmtInt id ++ [','] ++ whole ++ ['.'] ++ frac)
      = _setDimmer b id (levelOfDecimal whole frac) := by
    have := setDimmer_parse b id (whole ++ '.' :: (frac ++ [])) hlo hhi
    rw [toFloat_decimal whole frac [] hw hf (by simp)] at this
    simpa using this
  have p2 : setDimmer b (fmtInt id ++ [','] ++ whole) = _setDimmer b id (levelOfDecimal whole []) := by
    have := setDimmer_parse b id whole hlo hhi
    rw [toFloat_integer whole hw] at this
    simpa using this
  refine ⟨?_, p1, p2, fun hc => ?_⟩
  · unfold setDimmer
    have : indexOfChar s ',' 0 = -1 := indexOfChar_eq_neg_one s ',' 0 (by simpa using hs)
    simp only [this, if_true]
  · refine ⟨fmtFixed 2 (levelOfDecimal whole frac), ?_, ?_⟩
    · rw [p1]
      simp [_setDimmer, sendCommand, hc, LUTRON_WRITE, CRLF]
    · exact fixedText_levelOfDecimal 2 whole frac

set_option maxRecDepth 4000 in
/-- C20 (amended) at the strings `5` (no comma) and `5,0.015` on a connected fresh bridge:
the level text `0.015` reads as the `float` 16106127/1073741824, just below 0.015, and the
line written is `#OUTPUT,5,1,0.01`; `5,100.00`, `5,33.335` and `5,2.675` write `100.00`,
`33.33` and `2.67`. -/
theorem setDimmer_string_witness :
    (',' ∉ "5".toList ∧ AllDigits "0".toList ∧ AllDigits "015".toList ∧
      fmtInt 5 ++ [','] ++ "0".toList ++ ['.'] ++ "015".toList = "5,0.015".toList ∧
      levelOfDecimal "0".toList "015".toList = Level.finite false (mkRat 16106127 1073741824) ∧
      setDimmer connectedBridge "5,0.015".toList
        = (1, { connectedBridge with clientOut := "#OUTPUT,5,1,0.01\r\n".toList }) ∧
      (setDimmer connectedBridge "5,100.00".toList).2.clientOut
        = "#OUTPUT,5,1,100.00\r\n".toList ∧
      (setDimmer connectedBridge "5,33.335".toList).2.clientOut
        = "#OUTPUT,5,1,33.33\r\n".toList ∧
      (setDimmer connectedBridge "5,2.675".toList).2.clientOut
        = "#OUTPUT,5,1,2.67\r\n".toList ∧
      (setDimmer connectedBridge "5,250".toList).2.clientOut
        = "#OUTPUT,5,1,250.00\r\n".toList) ∧
    (setDimmer connectedBridge "5".toList = (-1, connectedBridge) ∧
    setDimmer connectedBridge (fmtInt 5 ++ [','] ++ "0".toList ++ ['.'] ++ "015".toList)
      = _setDimmer connectedBridge 5 (levelOfDecimal "0".toList "015".toList) ∧
    setDimmer connectedBridge (fmtInt 5 ++ [','] ++ "0".toList)
      = _setDimmer connectedBridge 5 (levelOfDecimal "0".toList []) ∧
    (connectedBridge.clientConnected = true →
      ∃ t : Str,
        setDimmer connectedBridge (fmtInt 5 ++ [','] ++ "0".toList ++ ['.'] ++ "015".toList)
          = (1, { connectedBridge with clientOut := connectedBridge.clientOut ++
              ("#OUTPUT,".toList ++ fmtInt 5 ++ ",1,".toList ++ t) ++ ['\r', '\n'] }) ∧
        ((∃ mag : ℚ, levelOfDecimal "0".toList "015".toList = Level.finite false mag ∧
            IsFixedText 2 false |mag| t) ∨
          (levelOfDecimal "0".toList "015".toList = Level.inf false ∧ t = ['i', 'n', 'f'])))) :=
  ⟨⟨by decide, by decide, by decide, by decide, by decide, by decide, by decide, by decide,
      by decide, by decide⟩,
    setDimmer_string connectedBridge "5".toList 5 "0".toList "015".toList
      (by decide) (by decide) (by decide) (by decide) (by decide)⟩

set_option maxRecDepth 4000 in
/-- C20 (as stated) fails: on a connected bridge `setDimmer` on `5,` followed by the decimal
level 1 and forty zeros, point, `00` writes the line `#OUTPUT,5,1,inf`, not that level with
two decimals: the level text is beyond the range of `float` and reads as `+inf`. -/
theorem setDimmer_string_counterexample :
    AllDigits "10000000000000000000000000000000000000000".toList ∧
    AllDigits "00".toList ∧
    levelOfDecimal "10000000000000000000000000000000000000000".toList "00".toList
      = Level.inf false ∧
    setDimmer connectedBridge "5,10000000000000000000000000000000000000000.00".toList
      = (1, { connectedBridge with clientOut := "#OUTPUT,5,1,inf\r\n".toList }) ∧
    "#OUTPUT,5,1,inf\r\n".toList
      ≠ "#OUTPUT,5,1,10000000000000000000000000000000000000000.00\r\n".toList := by
  decide


theorem telnetListenerScan_invariant (h : Header) (P : Bridge → Prop)
    (hP : ∀ b k l, P b → P (applyChange h b k l)) (buf : Str) (fuel : Nat) :
    ∀ (start : Int) (b b1 : Bridge), telnetListenerScan h buf fuel start b = some b1 →
      P b → P b1 := by
  induction fuel with
  | zero => intro start b b1 hres; simp [telnetListenerScan] at hres
  | succ fuel ih =>
    intro start b b1 hres hb
    rw [telnetListenerScan] at hres
    simp only [] at hres
    split at hres
    · cases hres; exact hb
    · split at hres
      · refine ih _ _ _ hres ?_
        split
        · exact hP _ _ _ hb
        · exact hb
      · cases hres
        split
        · exact hP _ _ _ hb
        · exact hb

theorem setAllDimmersLoop_invariant (P : Bridge → Prop)
    (hP : ∀ b k l, P b → P (_setDimmer b k l).2) (s : Str) (fuel : Nat) :
    ∀ (start : Int) (b b1 : Bridge), setAllDimmersLoop s fuel start b = some b1 →
      P b → P b1 := by
  induction fuel with
  | zero => intro start b b1 hres; simp [setAllDimmersLoop] at hres
  | succ fuel ih =>
    intro start b b1 hres hb
    rw [setAllDimmersLoop] at hres
    simp only [] at hres
    split at hres
    · cases hres; exact hb
    · split at hres
      · cases hres; exact hb
      · split at hres
        · exact ih _ _ _ hres (hP _ _ _ hb)
        · cases hres; exact hP _ _ _ hb

theorem sendCommand_deviceMap (b : Bridge) (s : Str) :
    (sendCommand b s).2.deviceMap = b.deviceMap := by
  unfold sendCommand
  split <;> rfl

theorem initDimmerLevelsLoop_deviceMap (count : Nat) : ∀ (i : Int) (b : Bridge),
    (initDimmerLevelsLoop count i b).deviceMap = b.deviceMap := by
  induction count with
  | zero => intro i b; rfl
  | succ count ih =>
    intro i b
    rw [initDimmerLevelsLoop, ih, _getDimmer, sendCommand_deviceMap]

theorem deviceExists_mapAssign (m : DEVICE_MAP) (id k : Int) (v : LUTRON_DEVICE)
    (hex : (mapFind id m).isSome = true) : (mapFind id (mapAssign k v m)).isSome = true := by
  rw [mapFind_mapAssign_eq]
  split
  · rfl
  · exact hex

/-- C14: a device id that has an entry keeps one through every operation of the bridge: a
listener drain of any received text (whenever its scan leaves), `addDevice`, `updateDevice`,
`getDevice`, `setDimmer`, `getAllDimmers`, `setAllDimmers` (whenever its loop leaves),
`initDimmerLevels`, `sendCommand` and `disconnect`; `deviceExists` itself only reads. -/
theorem entries_never_removed (h : Header) (b : Bridge) (id : Int)
    (hex : deviceExists b id = true) :
    (∀ (fuel : Nat) (received : Str) (b1 : Bridge),
      telnetListener h fuel b received = some b1 → deviceExists b1 id = true) ∧
    (∀ (k : Int) (d : LUTRON_DEVICE), deviceExists (addDevice b k d) id = true) ∧
    (∀ (k : Int) (d : LUTRON_DEVICE), deviceExists (updateDevice b k d) id = true) ∧
    (∀ k : Int, deviceExists (getDevice h b k).2 id = true) ∧
    (∀ s : Str, deviceExists (setDimmer b s).2 id = true) ∧
    deviceExists (getAllDimmers b).2 id = true ∧
    (∀ (fuel : Nat) (s : Str) (r : Int × Bridge),
      setAllDimmers fuel b s = some r → deviceExists r.2 id = true) ∧
    (∀ n : Int, deviceExists (initDimmerLevels b n).2 id = true) ∧
    (∀ s : Str, deviceExists (sendCommand b s).2 id = true) ∧
    deviceExists (disconnect b) id = true := by
  have hex' : (mapFind id b.deviceMap).isSome = true := hex
  have happly : ∀ (x : Bridge) (k : Int) (l : Level),
      deviceExists x id = true → deviceExists (applyChange h x k l) id = true :=
    fun x k l hx => deviceExists_mapAssign x.deviceMap id k _ hx
  have hset : ∀ (x : Bridge) (k : Int) (l : Level),
      deviceExists x id = true → deviceExists (_setDimmer x k l).2 id = true := by
    intro x k l hx
    unfold deviceExists _setDimmer
    rw [sendCommand_deviceMap]
    exact hx
  refine ⟨?_, ?_, ?_, ?_, ?_, hex, ?_, ?_, ?_, ?_⟩
  · intro fuel received b1 hres
    unfold telnetListener at hres
    split at hres
    · cases hres; exact hex
    · exact telnetListenerScan_invariant h (fun x => deviceExists x id = true) happly
        received fuel 0 b b1 hres hex
  · intro k d
    exact deviceExists_mapAssign b.deviceMap id k d hex'
  · intro k d
    exact deviceExists_mapAssign b.deviceMap id k d hex'
  · intro k
    unfold getDevice
    split
    · exact hex
    · exact deviceExists_mapAssign b.deviceMap id k _ hex'
  · intro s
    unfold setDimmer
    simp only []
    split
    · exact hex
    · exact hset b _ _ hex
  · intro fuel s r hres
    unfold setAllDimmers at hres
    cases hloop : setAllDimmersLoop s fuel 0 b with
    | none => rw [hloop] at hres; cases hres
    | some b1 =>
      rw [hloop] at hres
      cases hres
      exact setAllDimmersLoop_invariant (fun x => deviceExists x id = true) hset s fuel 0 b b1
        hloop hex
  · intro n
    unfold deviceExists initDimmerLevels
    rw [initDimmerLevelsLoop_deviceMap]
    exact hex
  · intro s
    unfold deviceExists
    rw [sendCommand_deviceMap]
    exact hex
  · unfold disconnect
    simp only []
    split <;> exact hex


/-- C14 on the cache holding devices 5 and 7: device 5 keeps its entry through a drain that
changes device 7 and through `disconnect`. -/
theorem entries_never_removed_witness :
    deviceExists exampleCache 5 = true ∧
    (∃ b1, telnetListener exampleHeader 5 exampleCache "~OUTPUT,7,1,1.00\r\n".toList = some b1 ∧
      deviceExists b1 5 = true) ∧
    deviceExists (disconnect exampleCache) 5 = true :=
  ⟨by decide,
    ⟨applyChange exampleHeader exampleCache 7 1, by decide,
      (entries_never_removed exampleHeader exampleCache 5 (by decide)).1 5
        "~OUTPUT,7,1,1.00\r\n".toList _ (by decide)⟩,
    (entries_never_removed exampleHeader exampleCache 5 (by decide)).2.2.2.2.2.2.2.2.2⟩

theorem scan_frames (h : Header) (fs : List (Int × Str × Str)) :
    ∀ (pre : Str) (s : Nat) (b : Bridge) (k : Nat), s ≤ pre.length → '~' ∉ pre.drop s →
      WellFormedFrames fs →
      telnetListenerScan h (pre ++ framesText fs) (fs.length + 1 + k) (s : Int) b
        = some (applyFrames h b fs) := by
  induction fs with
  | nil =>
    intro pre s b k hs hpre _
    have : '~' ∉ (pre ++ framesText []).drop s := by
      simpa [framesText] using hpre
    have hfuel : ([] : List (Int × Str × Str)).length + 1 + k = k + 1 := by
      simp only [List.length_nil]; omega
    rw [hfuel]
    exact scan_done h _ k s b this
  | cons f rest ih =>
    intro pre s b k hs hpre hwf
    obtain ⟨hlo, hhi, hw, hf⟩ := hwf f (by simp)
    have hrest : WellFormedFrames rest := fun g hg => hwf g (List.mem_cons_of_mem _ hg)
    have hlen : LUTRON_RETURN.length = 8 := by decide
    have hshape : pre ++ framesText (f :: rest)
        = pre ++ (LUTRON_RETURN ++ (fmtInt f.1 ++ ',' :: (['1'] ++ ',' ::
            ((f.2.1 ++ '.' :: (f.2.2 ++ ['\r'])) ++ '\n' :: framesText rest)))) := by
      simp [framesText, changeFrame, frameText, CRLF]
    have hshape2 : pre ++ framesText (f :: rest)
        = (pre ++ changeFrame f.1 f.2.1 f.2.2) ++ framesText rest := by
      simp [framesText]
    have hfuel : (f :: rest).length + 1 + k = (rest.length + 1 + k) + 1 := by
      simp only [List.length_cons]; omega
    have step := scan_frame h pre (fmtInt f.1) ['1'] (f.2.1 ++ '.' :: (f.2.2 ++ ['\r']))
      (framesText rest) (rest.length + 1 + k) s b hs hpre
      (fmtInt_not_mem f.1 (by decide) (by decide)) (by decide)
      (level_not_mem f.2.1 f.2.2 hw hf (by decide) (by decide) (by decide))
    rw [← hshape, toFloat_level f.2.1 f.2.2 hw hf, toInt_fmtInt f.1 hlo hhi,
      show toInt ['1'] = 1 by decide, if_pos rfl] at step
    rw [hfuel, step, hshape2]
    have hdrop : (pre ++ changeFrame f.1 f.2.1 f.2.2).drop
        (pre.length + 8 + (fmtInt f.1).length + 1 + ['1'].length + 1)
        = f.2.1 ++ '.' :: (f.2.2 ++ ['\r', '\n']) := by
      have : pre ++ changeFrame f.1 f.2.1 f.2.2
          = (pre ++ (LUTRON_RETURN ++ (fmtInt f.1 ++ ',' :: (['1'] ++ [','])))) ++
            (f.2.1 ++ '.' :: (f.2.2 ++ ['\r', '\n'])) := by
        simp [changeFrame, frameText, CRLF]
      rw [this, List.drop_left' (by simp [hlen]; omega)]
    have := ih (pre ++ changeFrame f.1 f.2.1 f.2.2)
      (pre.length + 8 + (fmtInt f.1).length + 1 + ['1'].length + 1)
      (applyChange h b f.1 (levelOfDecimal f.2.1 f.2.2)) k
      (by simp [changeFrame, frameText, hlen, CRLF]; omega)
      (by
        rw [hdrop]
        intro m
        rcases List.mem_append.1 m with m | m
        · exact hw.not_mem (by decide) m
        · rcases List.mem_cons.1 m with e | m
          · exact absurd e (by decide)
          · rcases List.mem_append.1 m with m | m
            · exact hf.not_mem (by decide) m
            · revert m; decide)
      hrest
    rw [this]
    rfl

theorem applyFrames_published (h : Header) (fs : List (Int × Str × Str)) :
    ∀ b : Bridge, b.bPublishAll = true →
      (applyFrames h b fs).published
        = b.published ++ fs.map (fun f => changeEvent f.1 (frameLevel f)) := by
  induction fs with
  | nil => intro b _; simp [applyFrames]
  | cons f rest ih =>
    intro b hb
    have := ih (applyChange h b f.1 (frameLevel f)) (by simpa [applyChange] using hb)
    simp only [applyFrames, List.foldl_cons] at this ⊢
    rw [this]
    simp [applyChange, hb, changeEvent]

theorem applyFrames_lastLevel (h : Header) (b : Bridge) (id : Int)
    (fs : List (Int × Str × Str)) :
    ∀ l : Level, lastLevel id fs = some l →
      mapFind id (applyFrames h b fs).deviceMap = some ⟨id, l, h.DEFAULT_ON_LEVEL⟩ := by
  induction fs using List.reverseRecOn with
  | nil => intro l hl; simp [lastLevel] at hl
  | append_singleton init f ih =>
    intro l hl
    have happ : applyFrames h b (init ++ [f])
        = applyChange h (applyFrames h b init) f.1 (frameLevel f) := by
      simp [applyFrames, List.foldl_append]
    rw [happ]
    simp only [applyChange, mapFind_mapAssign_eq]
    by_cases hid : f.1 = id
    · have hl2 : lastLevel id (init ++ [f]) = some (frameLevel f) := by
        simp [lastLevel, List.filter_append, hid]
      rw [hl2] at hl
      cases hl
      simp [hid]
    · have hl2 : lastLevel id (init ++ [f]) = lastLevel id init := by
        simp [lastLevel, List.filter_append, hid]
      rw [hl2] at hl
      have hid' : ¬ id = f.1 := fun e => hid e.symm
      rw [if_neg hid']
      exact ih l hl

/-- C19: a received text made of well-formed change frames makes the listener, within the
one drain, publish exactly one change event per frame, in the order of the frames, and
leaves every device that has a frame cached at the level of its last frame.  The level of a
frame is the `float` that its level text reads as, and its event is `device=<id>&level=<t>`
with `t` the exact value of that float rounded to no decimals, or `inf`. -/
theorem listener_frame_sequence (h : Header) (b : Bridge) (fs : List (Int × Str × Str))
    (k : Nat) (hpub : b.bPublishAll = true) (hwf : WellFormedFrames fs) :
    ∃ b1, telnetListener h (fs.length + 1 + k) b (framesText fs) = some b1 ∧
      b1.published = b.published ++ fs.map (fun f => changeEvent f.1 (frameLevel f)) ∧
      (∀ f ∈ fs, ∃ l, lastLevel f.1 fs = some l) ∧
      (∀ (id : Int) (l : Level), lastLevel id fs = some l →
        deviceExists b1 id = true ∧ (getDevice h b1 id).1.currentLevel = l) ∧
      ∀ f ∈ fs, ∃ t : Str,
        changeEvent f.1 (frameLevel f)
          = ("lutron/device/changed".toList,
              "device=".toList ++ fmtInt f.1 ++ "&level=".toList ++ t) ∧
        ((∃ mag : ℚ, frameLevel f = Level.finite false mag ∧ IsFixedText 0 false |mag| t) ∨
          (frameLevel f = Level.inf false ∧ t = ['i', 'n', 'f'])) := by
  refine ⟨applyFrames h b fs, ?_, applyFrames_published h fs b hpub, ?_, ?_,
    fun f _ => ⟨fmtFixed 0 (frameLevel f), rfl, fixedText_levelOfDecimal 0 f.2.1 f.2.2⟩⟩
  · unfold telnetListener
    split
    · next hnil =>
      cases fs with
      | nil => rfl
      | cons f rest =>
        exfalso
        simp [framesText, changeFrame, frameText, LUTRON_RETURN_eq] at hnil
    · have := scan_frames h fs [] 0 b k (by simp) (by simp) hwf
      simpa using this
  · intro f hf
    have hne : (fs.filter (fun g => decide (g.1 = f.1))) ≠ [] := by
      intro hnil
      have : f ∈ fs.filter (fun g => decide (g.1 = f.1)) := by
        simp [List.mem_filter, hf]
      rw [hnil] at this
      cases this
    cases hlast : (fs.filter (fun g => decide (g.1 = f.1))).getLast? with
    | none => exact absurd (List.getLast?_eq_none_iff.1 hlast) hne
    | some g => exact ⟨frameLevel g, by simp [lastLevel, hlast]⟩
  · intro id l hl
    have := applyFrames_lastLevel h b id fs l hl
    simp [deviceExists, getDevice, this]

/-- C19 at the three frames of `exampleFrames`: the events carry the levels 100, 0 and 2,
device 5 ends at the `float` 2.5 and device 7 at the `float` nearest to 0.1. -/
theorem listener_frame_sequence_witness :
    (new.bPublishAll = true ∧ WellFormedFrames exampleFrames ∧
      framesText exampleFrames
        = "~OUTPUT,5,1,100.00\r\n~OUTPUT,7,1,0.10\r\n~OUTPUT,5,1,2.5000001\r\n".toList ∧
      lastLevel 5 exampleFrames = some (Level.finite false (mkRat 5 2)) ∧
      lastLevel 7 exampleFrames = some (Level.finite false (mkRat 13421773 134217728)) ∧
      exampleFrames.map (fun f => changeEvent f.1 (frameLevel f))
        = [("lutron/device/changed".toList, "device=5&level=100".toList),
            ("lutron/device/changed".toList, "device=7&level=0".toList),
            ("lutron/device/changed".toList, "device=5&level=2".toList)]) ∧
    ∃ b1, telnetListener exampleHeader (exampleFrames.length + 1 + 0) new
        (framesText exampleFrames) = some b1 ∧
      b1.published = new.published ++
        exampleFrames.map (fun f => changeEvent f.1 (frameLevel f)) ∧
      (∀ f ∈ exampleFrames, ∃ l, lastLevel f.1 exampleFrames = some l) ∧
      (∀ (id : Int) (l : Level), lastLevel id exampleFrames = some l →
        deviceExists b1 id = true ∧ (getDevice exampleHeader b1 id).1.currentLevel = l) ∧
      ∀ f ∈ exampleFrames, ∃ t : Str,
        changeEvent f.1 (frameLevel f)
          = ("lutron/device/changed".toList,
              "device=".toList ++ fmtInt f.1 ++ "&level=".toList ++ t) ∧
        ((∃ mag : ℚ, frameLevel f = Level.finite false mag ∧ IsFixedText 0 false |mag| t) ∨
          (frameLevel f = Level.inf false ∧ t = ['i', 'n', 'f'])) :=
  ⟨⟨rfl, by decide, by decide, by decide, by decide, by decide⟩,
    listener_frame_sequence exampleHeader new exampleFrames 0 rfl (by decide)⟩

end LutronBridge
